import Mathlib

/-!
Verification development for the change-management audit repository.

The two validation agents (`sod_violation_detection_agent.py` and
`approver_validation_agent.py`) are shallowly embedded below: pandas rows
and parsed JSON records become association lists from column names to
string values, DataFrame operations become list operations, and every
Python `try/except` boundary becomes a total function (paths on which the
Python code raises to its caller are modelled with `Except`).
-/

namespace ChangeMgmt

/-- Association-list model of one Python dict / pandas row: column name to
string value.  A missing key models a missing column or a `NaN` cell. -/
abbrev Dict := List (String × String)

/-- `d[k]` as an `Option`: the value of the first binding of key `k`. -/
def dictLookup (d : Dict) (k : String) : Option String :=
  match d with
  | [] => none
  | (k', v) :: rest => if k' = k then some v else dictLookup rest k

/-- Whether the row has a (non-NaN) value in column `k`. -/
def hasKey (d : Dict) (k : String) : Bool :=
  (dictLookup d k).isSome

/-- `d[k] = v`: replace the first binding of `k`, or append one. -/
def setKey (d : Dict) (k v : String) : Dict :=
  match d with
  | [] => [(k, v)]
  | (k', v') :: rest => if k' = k then (k, v) :: rest else (k', v') :: setKey rest k v

/-- `df.drop(columns=[k])` at row level: remove every binding of `k`. -/
def dropKey (d : Dict) (k : String) : Dict :=
  d.filter (fun kv => kv.1 ≠ k)

/-- `df.rename(columns={old: nw})` at row level. -/
def renameKey (d : Dict) (old nw : String) : Dict :=
  d.map (fun kv => if kv.1 = old then (nw, kv.2) else kv)

/-- `df[k].fillna(v)` at row level: set `k` only when it is missing. -/
def fillKey (d : Dict) (k v : String) : Dict :=
  if hasKey d k then d else setKey d k v

/-- Python `str.lower()` (character-wise lowering). -/
def strToLower (s : String) : String :=
  String.mk (s.data.map Char.toLower)

/-- Keep the first occurrence of each name (pandas column order for
`pd.DataFrame(list_of_dicts)` is order of first appearance). -/
def firstOcc (seen : List String) : List String → List String
  | [] => []
  | k :: rest => if seen.contains k then firstOcc seen rest else k :: firstOcc (k :: seen) rest

/-- The column list of `pd.DataFrame(all_results)`: union of the dict keys
in order of first appearance. -/
def dfColumns (rs : List Dict) : List String :=
  firstOcc [] (rs.flatMap (fun r => r.map Prod.fst))

/-!
### Retry client

`_call_ai_with_thread_and_run` (both agents): a `while retry_count <
max_retries` loop.  One loop iteration is one attempt against the backend;
an attempt either raises (modelled `Except.error`), or returns the polled
result list (possibly empty, in which case the code logs "Polling completed
but no results returned" and retries without sleeping).  Only the
exception branch sleeps, `time.sleep(2)`, and only when another attempt
remains.  The function returns `(results, attempts performed, sleep
delays in seconds)`; the fuel argument is `max_retries - retry_count`.
-/

def callAiAttemptsAux (attempt : Nat → Except Unit (List Dict)) (maxRetries : Nat) :
    Nat → Nat → List Dict × Nat × List Nat
  | _, 0 => ([], 0, [])
  | retryCount, fuel + 1 =>
    match attempt retryCount with
    | .ok result =>
      if result.isEmpty then
        let (res, n, sl) := callAiAttemptsAux attempt maxRetries (retryCount + 1) fuel
        (res, n + 1, sl)
      else (result, 1, [])
    | .error _ =>
      let (res, n, sl) := callAiAttemptsAux attempt maxRetries (retryCount + 1) fuel
      (res, n + 1, if retryCount + 1 < maxRetries then 2 :: sl else sl)

/-- `_call_ai_with_thread_and_run`: run the retry loop from
`retry_count = 0`; after the budget is exhausted it returns `[]`. -/
def callAiWithThreadAndRun (attempt : Nat → Except Unit (List Dict)) (maxRetries : Nat) :
    List Dict × Nat × List Nat :=
  callAiAttemptsAux attempt maxRetries 0 maxRetries

/-!
### SOD context builder (`_prepare_merged_data`, `_get_iam_role`)
-/

/-- One row of the change-migration population table.  `Change_ID` and
`Asset_Name` are `Option` because the code tests their presence
(`if 'Change_ID' not in change_row`); the other columns are read with
`change_row.get(col, 'Unknown')`. -/
structure ChangeRow where
  Change_ID : Option String
  Asset_Name : Option String
  Requestor_ID : Option String
  Requestor_Name : Option String
  Developer_ID : Option String
  Developer_Name : Option String
  Approver_ID : Option String
  Approver_Name : Option String
  Change_Type : Option String
  Risk_Rating : Option String
deriving DecidableEq, Repr

/-- One row of the CI/CD deployment log. -/
structure DeployRow where
  Linked_Change_ID : String
  Asset_Name : String
  Deployer_ID : String
  Deployer_Name : String
  Deployment_ID : String
deriving DecidableEq, Repr

/-- One row of the IAM users status table. -/
structure IamUser where
  User_ID : String
  IAM_Role : String
  Mapped_DOA_Role : String
deriving DecidableEq, Repr

/-- One joined context row of `merged_df` as built by
`_prepare_merged_data`. -/
structure SODRow where
  Change_ID : String
  Asset_Name : String
  Change_Type : String
  Risk_Rating : String
  Requestor_ID : String
  Requestor_Name : String
  Requestor_Role : String
  Approver_ID : String
  Approver_Name : String
  Approver_Role : String
  Developer_ID : String
  Developer_Name : String
  Developer_Role : String
  Deployer_ID : String
  Deployer_Name : String
  Deployer_Role : String
  Deployment_ID : String
deriving DecidableEq, Repr

/-- `_get_iam_role`: filter the IAM table on `User_ID == user_id`; take
`iloc[0]['Mapped_DOA_Role']` when nonempty, else `"Unknown"`. -/
def getIamRole (iam : List IamUser) (userId : String) : String :=
  match iam.filter (fun u => u.User_ID = userId) with
  | [] => "Unknown"
  | u :: _ => u.Mapped_DOA_Role

/-- The `change_info` dictionary built for one change and its first
matching deployment-log row. -/
def buildSODRow (iam : List IamUser) (c : ChangeRow) (changeId assetName : String)
    (d0 : DeployRow) : SODRow :=
  { Change_ID := changeId
    Asset_Name := assetName
    Change_Type := c.Change_Type.getD "Unknown"
    Risk_Rating := c.Risk_Rating.getD "Unknown"
    Requestor_ID := c.Requestor_ID.getD "Unknown"
    Requestor_Name := c.Requestor_Name.getD "Unknown"
    Requestor_Role := getIamRole iam (c.Requestor_ID.getD "Unknown")
    Approver_ID := c.Approver_ID.getD "Unknown"
    Approver_Name := c.Approver_Name.getD "Unknown"
    Approver_Role := getIamRole iam (c.Approver_ID.getD "Unknown")
    Developer_ID := c.Developer_ID.getD "Unknown"
    Developer_Name := c.Developer_Name.getD "Unknown"
    Developer_Role := getIamRole iam (c.Developer_ID.getD "Unknown")
    Deployer_ID := d0.Deployer_ID
    Deployer_Name := d0.Deployer_Name
    Deployer_Role := getIamRole iam d0.Deployer_ID
    Deployment_ID := d0.Deployment_ID }

/-- `_prepare_merged_data`: one joined row per change.  A change missing
`Change_ID` or `Asset_Name` is skipped; a change with no matching
deployment-log row is skipped (`continue`); deployer data comes from the
first matching deployment row; IAM role lookups go through
`getIamRole`. -/
def prepareMergedData (changes : List ChangeRow) (deploys : List DeployRow)
    (iam : List IamUser) : List SODRow :=
  changes.filterMap (fun c =>
    match c.Change_ID, c.Asset_Name with
    | some changeId, some assetName =>
      match deploys.filter (fun d => d.Linked_Change_ID = changeId ∧ d.Asset_Name = assetName) with
      | [] => none
      | d0 :: _ => some (buildSODRow iam c changeId assetName d0)
    | _, _ => none)

/-!
### SOD result processing (`_process_ai_results`,
`_standardize_exception_reasons`)
-/

/-- One row of `violations_data` after the left merge of the AI results
onto `merged_df`.  Fields coming from the right side of the merge are
`none` (pandas `NaN`) when the result row matched no joined context row;
`Status` and `Exception_Reason` are `none` when the AI dict lacked the
corresponding lowercase key. -/
structure VRow where
  Change_ID : Option String
  Asset_Name : Option String
  Change_Type : Option String
  Risk_Rating : Option String
  Requestor_ID : Option String
  Requestor_Name : Option String
  Requestor_Role : Option String
  Approver_ID : Option String
  Approver_Name : Option String
  Approver_Role : Option String
  Developer_ID : Option String
  Developer_Name : Option String
  Developer_Role : Option String
  Deployer_ID : Option String
  Deployer_Name : Option String
  Deployer_Role : Option String
  Deployment_ID : Option String
  Status : Option String
  Exception_Reason : Option String
deriving DecidableEq, Repr

/-- Python `==` between two cell values, where `none` models pandas `NaN`:
`NaN == x` is `False`, in particular `NaN == NaN` is `False`. -/
def optValEq : Option String → Option String → Bool
  | some x, some y => x = y
  | _, _ => false

/-- Build the `user_roles` dict literal: sequential insertion where a
duplicate key keeps its first position but takes the later value.  All
pandas `NaN`s are the same `float` object, so `none` keys collide exactly
like equal string keys (plain `Option` equality). -/
def rolesInsert (d : List (Option String × List String)) (k : Option String)
    (v : List String) : List (Option String × List String) :=
  match d with
  | [] => [(k, v)]
  | (k', v') :: rest => if k' = k then (k', v) :: rest else (k', v') :: rolesInsert rest k v

/-- The `user_roles` dict of `_standardize_exception_reasons`:
`{Requestor_ID: ['Requestor'], Developer_ID: ['Developer'],
Deployer_ID: ['Deployer'], Approver_ID: ['Approver']}`. -/
def userRolesDict (r : VRow) : List (Option String × List String) :=
  rolesInsert (rolesInsert (rolesInsert (rolesInsert [] r.Requestor_ID ["Requestor"])
    r.Developer_ID ["Developer"]) r.Deployer_ID ["Deployer"]) r.Approver_ID ["Approver"]

/-- The four `if row[col] == user_id and role not in roles` checks, in
source order Requestor, Developer, Deployer, Approver. -/
def collectRoles (r : VRow) (u : Option String) (roles : List String) : List String :=
  let roles := if optValEq r.Requestor_ID u ∧ ¬ roles.contains "Requestor"
    then roles ++ ["Requestor"] else roles
  let roles := if optValEq r.Developer_ID u ∧ ¬ roles.contains "Developer"
    then roles ++ ["Developer"] else roles
  let roles := if optValEq r.Deployer_ID u ∧ ¬ roles.contains "Deployer"
    then roles ++ ["Deployer"] else roles
  if optValEq r.Approver_ID u ∧ ¬ roles.contains "Approver"
    then roles ++ ["Approver"] else roles

/-- `violations_by_id`: iterate the `user_roles` dict in insertion order,
skip the literal key `'Unknown'`, grow each roles list, and keep only
entries with two or more roles. -/
def violationsById (r : VRow) : List (Option String × List String) :=
  (userRolesDict r).foldl (fun acc kv =>
    if kv.1 = some "Unknown" then acc
    else
      let roles := collectRoles r kv.1 kv.2
      if roles.length > 1 then acc ++ [(kv.1, roles)] else acc) []

/-- Render one overlap group exactly as the f-strings in
`_standardize_exception_reasons` do. -/
def formatReasonPart (u : Option String) (roles : List String) : String :=
  let uid := u.getD ""
  if roles.length = 4 then
    "Requestor, Developer, Deployer & Approver share the same ID (" ++ uid ++ ")"
  else if roles.length = 3 then
    String.intercalate ", " roles.dropLast ++ " & " ++ (roles.getLast?.getD "") ++
      " share the same ID (" ++ uid ++ ")"
  else
    (roles.getD 0 "") ++ " and " ++ (roles.getD 1 "") ++ " share the same ID (" ++ uid ++ ")"

/-- `reason_parts`: the loop over `violations_by_id.items()`; lengths other
than 2, 3, 4 produce nothing (only >1 entries are present anyway). -/
def reasonParts (r : VRow) : List String :=
  (violationsById r).foldl (fun acc kv =>
    if kv.2.length = 4 ∨ kv.2.length = 3 ∨ kv.2.length = 2
      then acc ++ [formatReasonPart kv.1 kv.2] else acc) []

/-- `_standardize_exception_reasons` on one row: only `Exception` rows are
touched, and only when at least one overlap group was found. -/
def sodStandardizeRow (r : VRow) : VRow :=
  if r.Status = some "Exception" then
    if (reasonParts r).isEmpty then r
    else { r with Exception_Reason := some (String.intercalate "; " (reasonParts r)) }
  else r

/-- `set(result['change_id'] for result in all_results)`: collect the
identifier of every result; a Python `KeyError` on any result propagates
to the caller of `_process_ai_results`, modelled as `Except.error`. -/
def collectChangeIds : List Dict → Except Unit (List String)
  | [] => .ok []
  | r :: rest =>
    match dictLookup r "change_id" with
    | some v => (collectChangeIds rest).map (fun vs => v :: vs)
    | none => .error ()

/-- The dict appended for a record the AI response omitted
(status `Unknown`, reason `Record not processed by AI analysis`). -/
def sodSynthRecord (m : SODRow) : Dict :=
  [("change_id", m.Change_ID), ("asset_name", m.Asset_Name),
   ("requestor_id", m.Requestor_ID), ("requestor_name", m.Requestor_Name),
   ("developer_id", m.Developer_ID), ("developer_name", m.Developer_Name),
   ("deployer_id", m.Deployer_ID), ("deployer_name", m.Deployer_Name),
   ("approval_id", m.Approver_ID), ("approval_name", m.Approver_Name),
   ("status", "Unknown"), ("exception_reason", "Record not processed by AI analysis")]

/-- Build one merged row from a result dict and its (optional) matching
joined context row. -/
def sodMkVRow (r : Dict) (m : Option SODRow) : VRow :=
  { Change_ID := m.map (·.Change_ID)
    Asset_Name := m.map (·.Asset_Name)
    Change_Type := m.map (·.Change_Type)
    Risk_Rating := m.map (·.Risk_Rating)
    Requestor_ID := m.map (·.Requestor_ID)
    Requestor_Name := m.map (·.Requestor_Name)
    Requestor_Role := m.map (·.Requestor_Role)
    Approver_ID := m.map (·.Approver_ID)
    Approver_Name := m.map (·.Approver_Name)
    Approver_Role := m.map (·.Approver_Role)
    Developer_ID := m.map (·.Developer_ID)
    Developer_Name := m.map (·.Developer_Name)
    Developer_Role := m.map (·.Developer_Role)
    Deployer_ID := m.map (·.Deployer_ID)
    Deployer_Name := m.map (·.Deployer_Name)
    Deployer_Role := m.map (·.Deployer_Role)
    Deployment_ID := m.map (·.Deployment_ID)
    Status := dictLookup r "status"
    Exception_Reason := dictLookup r "exception_reason" }

/-- `pd.merge(results_df, merged_df, left_on=['change_id','asset_name'],
right_on=['Change_ID','Asset_Name'], how='left')` for one left row: one
output row per matching right row, or a single row with `NaN` right
fields. -/
def sodMergeRow (merged : List SODRow) (r : Dict) : List VRow :=
  let ms := merged.filter (fun m =>
    dictLookup r "change_id" = some m.Change_ID ∧ dictLookup r "asset_name" = some m.Asset_Name)
  if ms.isEmpty then [sodMkVRow r none] else ms.map (fun m => sodMkVRow r (some m))

/-- `SODViolationDetectionAgent._process_ai_results`.

* Empty results: `violations_data` is set to an empty DataFrame that has
  only the canonical column headers — zero rows (`.ok []`).
* Otherwise `processed_ids` is built with exact-lowercase `result['change_id']`
  access (`KeyError`, i.e. `.error`, if any result lacks it), records for
  `original_ids - processed_ids` are synthesized, the results are
  left-merged onto `merged_df`, renamed, standardized, and summarised.
  The merge raises unless the `change_id` and `asset_name` columns exist,
  and the closing summary (`violations_data['Status'] == 'Exception'`)
  raises unless the renamed `Status` column exists; those `KeyError`s
  propagate to `detect_sod_violations_with_ai`, which marks the run
  failed (`.error`).

The model assumes the backend's dict keys do not literally collide with
the post-rename names `Status` / `Exception_Reason` (pandas would suffix
colliding columns). -/
def sodProcessAIResults (all_results : List Dict) (merged : List SODRow) :
    Except Unit (List VRow) :=
  if all_results.isEmpty then .ok []
  else do
    let processedIds ← collectChangeIds all_results
    let originalIds := merged.map (·.Change_ID)
    let missingIds := (originalIds.filter (fun i => ! processedIds.contains i)).dedup
    let synth := missingIds.filterMap (fun mid =>
      (merged.find? (fun m => m.Change_ID = mid)).map sodSynthRecord)
    let results := all_results ++ synth
    let cols := dfColumns results
    if ¬ cols.contains "change_id" then .error ()
    else if ¬ cols.contains "asset_name" then .error ()
    else if ¬ cols.contains "status" then .error ()
    else .ok ((results.flatMap (sodMergeRow merged)).map sodStandardizeRow)

/-- The identifier list `[result['change_id'] for result in all_results]`
(defined when every result has the key; `collectChangeIds` returns exactly
this list on success). -/
def sodCids (results : List Dict) : List String :=
  results.map (fun r => (dictLookup r "change_id").getD "")

/-- `original_ids - processed_ids` as an ordered duplicate-free list. -/
def sodMissingIds (results : List Dict) (merged : List SODRow) : List String :=
  ((merged.map (·.Change_ID)).filter (fun i => ! (sodCids results).contains i)).dedup

/-- The synthesized records appended for the missing identifiers. -/
def sodSynthRecords (results : List Dict) (merged : List SODRow) : List Dict :=
  (sodMissingIds results merged).filterMap (fun mid =>
    (merged.find? (fun m => m.Change_ID = mid)).map sodSynthRecord)

/-!
### Approver validation (`_prepare_data_for_validation`,
`_process_ai_results`)
-/

/-- Substring occurrence test on character lists. -/
def subOccurs (needle : List Char) : List Char → Bool
  | [] => needle.isEmpty
  | c :: rest => needle.isPrefixOf (c :: rest) || subOccurs needle rest

/-- Case-insensitive substring test, modelling
`Series.str.contains('IT Manager|Business Manager', case=False)` for one
alternative. -/
def containsSubCI (hay needle : String) : Bool :=
  subOccurs (strToLower needle).data (strToLower hay).data

/-- `_prepare_data_for_validation`: copy the population rows and attach the
three comma-joined reference columns. -/
def prepareDataForValidation (pop : List Dict) (iam : List IamUser) : List Dict :=
  let iamUserIds := String.intercalate "," (iam.map (·.User_ID))
  let approverRoles := iam.filter (fun u => u.IAM_Role = "Approver")
  let approverUserIds := String.intercalate "," (approverRoles.map (·.User_ID))
  let itBuManagers := approverRoles.filter (fun u =>
    containsSubCI u.Mapped_DOA_Role "IT Manager" ∨ containsSubCI u.Mapped_DOA_Role "Business Manager")
  let itBuManagerIds := String.intercalate "," (itBuManagers.map (·.User_ID))
  pop.map (fun r =>
    setKey (setKey (setKey r "IAM_User_IDs" iamUserIds) "IAM_Approver_IDs" approverUserIds)
      "IT_BU_Manager_IDs" itBuManagerIds)

/-- Remove the reference columns added for AI analysis
(`columns_to_remove`). -/
def dropHelperCols (r : Dict) : Dict :=
  dropKey (dropKey (dropKey (dropKey r "IAM_User_IDs") "IAM_Approver_IDs") "IT_BU_Manager_IDs")
    "IAM_Data"

/-- The "default dataframe" built on the empty-results and
missing-columns paths: all records marked `Unknown` with the given
reason. -/
def approverDefaultResult (original : List Dict) (reason : String) : List Dict :=
  original.map (fun r => setKey (setKey (dropHelperCols r) "Status" "Unknown") "Reason_Code" reason)

/-- The `except` branch of `_process_ai_results`: same shape with reason
`"Error processing results: <e>"`. -/
def approverProcessErrorPath (original : List Dict) (e : String) : List Dict :=
  original.map (fun r => setKey (setKey (dropHelperCols r) "Status" "Unknown") "Reason_Code"
    ("Error processing results: " ++ e))

/-- The column-level steps after the merge, applied row-wise: drop the
duplicate identifier column (pandas merges identically named key columns
into one, so nothing is dropped when the located column is literally
`Change_ID`), rename the located status / reason columns to `Status` /
`Reason_Code`, and `fillna` the two canonical columns. -/
def approverPostRow (cidc sc rcc : String) (r : Dict) : Dict :=
  let r := if cidc = "Change_ID" then r else dropKey r cidc
  let r := if sc = "Status" then r else renameKey r sc "Status"
  let r := if rcc = "Reason_Code" then r else renameKey r rcc "Reason_Code"
  fillKey (fillKey r "Status" "Unknown") "Reason_Code" "Record not analyzed"

/-- Attach the selected result columns (`results_df[[change_id_col,
status_col, reason_code_col]]`) to one matched left row.  When the located
identifier column is literally `Change_ID`, pandas merges it with the
left key column instead of duplicating it. -/
def approverAttach (cidc sc rcc : String) (L r : Dict) : Dict :=
  let L1 := if cidc = "Change_ID" then L
    else match dictLookup r cidc with
      | some v => setKey L cidc v
      | none => L
  let L2 := match dictLookup r sc with
    | some v => setKey L1 sc v
    | none => L1
  match dictLookup r rcc with
  | some v => setKey L2 rcc v
  | none => L2

/-- `pd.merge(original_clean, results_df[[...]], left_on='Change_ID',
right_on=change_id_col, how='left')` for one left row. -/
def approverMergeRow (all_results : List Dict) (cidc sc rcc : String) (L : Dict) : List Dict :=
  let ms := all_results.filter (fun r => optValEq (dictLookup L "Change_ID") (dictLookup r cidc))
  if ms.isEmpty then [L] else ms.map (fun r => approverAttach cidc sc rcc L r)

/-- `ApproverValidationAgent._process_ai_results`.

* Empty results: every record marked `Unknown` / `"AI analysis failed"`.
* Locate the `Change_ID`, `Status`, `Reason_Code` columns
  case-insensitively among the result columns; if any is missing, every
  record is marked `Unknown` / `"AI results missing required columns"`.
* Otherwise drop the reference columns from the originals, left-merge the
  three selected result columns on the identifier, drop the duplicate
  identifier column, rename to `Status` / `Reason_Code`, and fill the
  unmatched rows with `Unknown` / `"Record not analyzed"`.

The model assumes the population columns do not literally collide with
the located result columns (pandas would suffix colliding columns and
fall into the `except` branch, `approverProcessErrorPath`). -/
def approverProcessAIResults (all_results original : List Dict) : List Dict :=
  if all_results.isEmpty then approverDefaultResult original "AI analysis failed"
  else
    let cols := dfColumns all_results
    match cols.find? (fun c => strToLower c = "change_id"),
        cols.find? (fun c => strToLower c = "status"),
        cols.find? (fun c => strToLower c = "reason_code") with
    | some cidc, some sc, some rcc =>
      let originalClean := original.map dropHelperCols
      ((originalClean.flatMap (approverMergeRow all_results cidc sc rcc)).map
        (approverPostRow cidc sc rcc))
    | _, _, _ => approverDefaultResult original "AI results missing required columns"

/-!
### JSON values and `json.loads`

The response parser feeds regex-located substrings to `json.loads`; a
parse failure raises `JSONDecodeError`, which both agents catch.  The
grammar below is standard JSON; numbers keep their lexeme.
-/

inductive Json where
  | null : Json
  | bool (b : Bool) : Json
  | num (lexeme : String) : Json
  | str (s : String) : Json
  | arr (elems : List Json) : Json
  | obj (fields : List (String × Json)) : Json

/-- JSON insignificant whitespace. -/
def isJsonWs (c : Char) : Bool :=
  c = ' ' ∨ c = '\t' ∨ c = '\n' ∨ c = '\r'

def skipJsonWs : List Char → List Char
  | [] => []
  | c :: rest => if isJsonWs c then skipJsonWs rest else c :: rest

def hexVal (c : Char) : Option Nat :=
  if '0' ≤ c ∧ c ≤ '9' then some (c.toNat - '0'.toNat)
  else if 'a' ≤ c ∧ c ≤ 'f' then some (c.toNat - 'a'.toNat + 10)
  else if 'A' ≤ c ∧ c ≤ 'F' then some (c.toNat - 'A'.toNat + 10)
  else none

/-- Parse a JSON string body (after the opening quote), handling escapes;
unescaped control characters are rejected as `json.loads` does. -/
def parseStringBody : List Char → Option (List Char × List Char)
  | [] => none
  | '"' :: rest => some ([], rest)
  | '\\' :: e :: rest =>
    match e with
    | '"' => (parseStringBody rest).map (fun (s, r) => ('"' :: s, r))
    | '\\' => (parseStringBody rest).map (fun (s, r) => ('\\' :: s, r))
    | '/' => (parseStringBody rest).map (fun (s, r) => ('/' :: s, r))
    | 'b' => (parseStringBody rest).map (fun (s, r) => ('\x08' :: s, r))
    | 'f' => (parseStringBody rest).map (fun (s, r) => ('\x0c' :: s, r))
    | 'n' => (parseStringBody rest).map (fun (s, r) => ('\n' :: s, r))
    | 'r' => (parseStringBody rest).map (fun (s, r) => ('\r' :: s, r))
    | 't' => (parseStringBody rest).map (fun (s, r) => ('\t' :: s, r))
    | 'u' =>
      match rest with
      | h1 :: h2 :: h3 :: h4 :: rest' =>
        match hexVal h1, hexVal h2, hexVal h3, hexVal h4 with
        | some a, some b, some c, some d =>
          (parseStringBody rest').map (fun (s, r) =>
            (Char.ofNat (((a * 16 + b) * 16 + c) * 16 + d) :: s, r))
        | _, _, _, _ => none
      | _ => none
    | _ => none
  | c :: rest =>
    if c.toNat < 32 then none
    else (parseStringBody rest).map (fun (s, r) => (c :: s, r))

def spanDigits (cs : List Char) : List Char × List Char :=
  cs.span (fun c => c.isDigit)

/-- Parse a JSON number lexeme: `-?digits(.digits)?([eE][+-]?digits)?`. -/
def parseNumberLexeme (cs : List Char) : Option (List Char × List Char) :=
  let (sign, cs1) := match cs with
    | '-' :: rest => (['-'], rest)
    | _ => (([] : List Char), cs)
  let (intPart, cs2) := spanDigits cs1
  if intPart.isEmpty then none
  else
    let (fracPart, cs3) := match cs2 with
      | '.' :: rest =>
        let (ds, r) := spanDigits rest
        if ds.isEmpty then (([] : List Char), cs2) else ('.' :: ds, r)
      | _ => (([] : List Char), cs2)
    let (expPart, cs4) := match cs3 with
      | e :: rest =>
        if e = 'e' ∨ e = 'E' then
          let (sgn, rest2) := match rest with
            | '+' :: r => (['+'], r)
            | '-' :: r => (['-'], r)
            | _ => (([] : List Char), rest)
          let (ds, r) := spanDigits rest2
          if ds.isEmpty then (([] : List Char), cs3) else (e :: (sgn ++ ds), r)
        else (([] : List Char), cs3)
      | _ => (([] : List Char), cs3)
    some (sign ++ intPart ++ fracPart ++ expPart, cs4)

/-- Parser mode: a value, the tail of an array, or the tail of an object. -/
inductive PMode where
  | value : PMode
  | arrHead (acc : List Json) : PMode
  | arrSep (acc : List Json) : PMode
  | objHead (acc : List (String × Json)) : PMode
  | objSep (acc : List (String × Json)) : PMode

/-- Fuelled recursive-descent JSON parser.  `arrHead`/`objHead` expect a
closing bracket or a first/next element; `arrSep`/`objSep` expect a comma
or a closing bracket. -/
def parseJ : Nat → PMode → List Char → Option (Json × List Char)
  | 0, _, _ => none
  | fuel + 1, .value, cs =>
    match skipJsonWs cs with
    | 'n' :: 'u' :: 'l' :: 'l' :: rest => some (.null, rest)
    | 't' :: 'r' :: 'u' :: 'e' :: rest => some (.bool true, rest)
    | 'f' :: 'a' :: 'l' :: 's' :: 'e' :: rest => some (.bool false, rest)
    | '"' :: rest => (parseStringBody rest).map (fun (s, r) => (.str (String.mk s), r))
    | '[' :: rest => parseJ fuel (.arrHead []) rest
    | '{' :: rest => parseJ fuel (.objHead []) rest
    | c :: rest =>
      if c = '-' ∨ c.isDigit then
        (parseNumberLexeme (c :: rest)).map (fun (lx, r) => (.num (String.mk lx), r))
      else none
    | [] => none
  | fuel + 1, .arrHead acc, cs =>
    match skipJsonWs cs with
    | ']' :: rest => if acc.isEmpty then some (.arr acc, rest) else none
    | cs' =>
      match parseJ fuel .value cs' with
      | some (v, r) => parseJ fuel (.arrSep (acc ++ [v])) r
      | none => none
  | fuel + 1, .arrSep acc, cs =>
    match skipJsonWs cs with
    | ']' :: rest => some (.arr acc, rest)
    | ',' :: rest =>
      match parseJ fuel .value rest with
      | some (v, r) => parseJ fuel (.arrSep (acc ++ [v])) r
      | none => none
    | _ => none
  | fuel + 1, .objHead acc, cs =>
    match skipJsonWs cs with
    | '}' :: rest => if acc.isEmpty then some (.obj acc, rest) else none
    | '"' :: rest =>
      match parseStringBody rest with
      | some (kcs, r1) =>
        match skipJsonWs r1 with
        | ':' :: r2 =>
          match parseJ fuel .value r2 with
          | some (v, r3) => parseJ fuel (.objSep (acc ++ [(String.mk kcs, v)])) r3
          | none => none
        | _ => none
      | none => none
    | _ => none
  | fuel + 1, .objSep acc, cs =>
    match skipJsonWs cs with
    | '}' :: rest => some (.obj acc, rest)
    | ',' :: rest =>
      match skipJsonWs rest with
      | '"' :: rest2 =>
        match parseStringBody rest2 with
        | some (kcs, r1) =>
          match skipJsonWs r1 with
          | ':' :: r2 =>
            match parseJ fuel .value r2 with
            | some (v, r3) => parseJ fuel (.objSep (acc ++ [(String.mk kcs, v)])) r3
            | none => none
          | _ => none
        | none => none
      | _ => none
    | _ => none

/-- `json.loads` on a character list: parse one value and require only
whitespace after it. -/
def jsonLoadsList (cs : List Char) : Option Json :=
  match parseJ (4 * cs.length + 4) .value cs with
  | some (v, rest) => if (skipJsonWs rest).isEmpty then some v else none
  | none => none

/-- `json.loads` on a string. -/
def jsonLoads (s : String) : Option Json :=
  jsonLoadsList s.data

/-- Lookup in a parsed JSON object (`'results' in ai_response`). -/
def jsonObjLookup (fields : List (String × Json)) (k : String) : Option Json :=
  match fields with
  | [] => none
  | (k', v) :: rest => if k' = k then some v else jsonObjLookup rest k

/-!
### Regex searches used by `_extract_json_from_text`

Each Python `re.search` below is deterministic, so it is modelled by a
direct scanning function with the same leftmost / lazy semantics.
-/

/-- Drop everything up to and including the first occurrence of `needle`;
`none` when `needle` does not occur. -/
def dropToAfter (needle : List Char) : List Char → Option (List Char)
  | [] => if needle.isEmpty then some [] else none
  | c :: rest =>
    if needle.isPrefixOf (c :: rest) then some ((c :: rest).drop needle.length)
    else dropToAfter needle rest

/-- Split at the first occurrence of `needle`: `(before, after)`. -/
def takeUntilSub (needle : List Char) : List Char → Option (List Char × List Char)
  | [] => if needle.isEmpty then some ([], []) else none
  | c :: rest =>
    if needle.isPrefixOf (c :: rest) then some ([], (c :: rest).drop needle.length)
    else (takeUntilSub needle rest).map (fun (b, a) => (c :: b, a))

def spanWs (cs : List Char) : List Char × List Char :=
  cs.span isJsonWs

def trimWsList (cs : List Char) : List Char :=
  ((cs.dropWhile isJsonWs).reverse.dropWhile isJsonWs).reverse

/-- SOD agent: `re.search(r'```json\s*([\s\S]*?)\s*```', text).group(1)` —
the text strictly between the first ` ```json ` and the next ` ``` `,
with surrounding whitespace absorbed by the greedy `\s*`s. -/
def sodSearchFenced (cs : List Char) : Option (List Char) := do
  let afterOpen ← dropToAfter "```json".data cs
  let (content, _) ← takeUntilSub "```".data afterOpen
  pure (trimWsList content)

/-- Approver agent: the same regex but `.group(0)` — the whole match,
fences included. -/
def approverSearchFenced (cs : List Char) : Option (List Char) := do
  let afterOpen ← dropToAfter "```json".data cs
  let (content, _) ← takeUntilSub "```".data afterOpen
  pure ("```json".data ++ content ++ "```".data)

/-- Lazy tail of the array pattern: the shortest prefix ending at a `}`
that is followed by whitespace and `]`; returns the matched span
(including `}`, the whitespace and `]`). -/
def arrPatternTail : List Char → Option (List Char)
  | [] => none
  | c :: rest =>
    if c = '}' then
      let (w, r) := spanWs rest
      match r with
      | ']' :: _ => some ('}' :: (w ++ [']']))
      | _ => (arrPatternTail rest).map (fun t => c :: t)
    else (arrPatternTail rest).map (fun t => c :: t)

/-- Match `\[\s*{[\s\S]*?}\s*\]` anchored at the head. -/
def matchArrayAt (cs : List Char) : Option (List Char) :=
  match cs with
  | '[' :: rest =>
    let (w, r) := spanWs rest
    match r with
    | '{' :: r2 => (arrPatternTail r2).map (fun t => '[' :: (w ++ ('{' :: t)))
    | _ => none
  | _ => none

/-- `re.search(r'\[\s*{[\s\S]*?}\s*\]', text).group(0)`: leftmost match. -/
def searchArrayPattern : List Char → Option (List Char)
  | [] => none
  | c :: rest =>
    match matchArrayAt (c :: rest) with
    | some m => some m
    | none => searchArrayPattern rest

/-- The prefix up to and including the first `}`. -/
def upToBrace : List Char → Option (List Char)
  | [] => none
  | c :: rest =>
    if c = '}' then some ['}']
    else (upToBrace rest).map (fun t => c :: t)

/-- `re.search(r'{[\s\S]*?}', text).group(0)`: from the leftmost `{` that
is followed by some `}`, lazily to that first `}`. -/
def searchObjectPattern : List Char → Option (List Char)
  | [] => none
  | c :: rest =>
    if c = '{' then
      match upToBrace rest with
      | some t => some ('{' :: t)
      | none => searchObjectPattern rest
    else searchObjectPattern rest

/-- `re.search(lit + capture, text)` for the SOD fallback patterns: find
the leftmost occurrence of the literal followed by a nonempty run of
`good` characters (and, when `closing` is given, that closing character
right after the run, as in `Status: "([A-Za-z]+)"`). -/
def searchCapture (lit : List Char) (good : Char → Bool) (closing : Option Char) :
    List Char → Option (List Char)
  | [] => none
  | c :: rest =>
    (if lit.isPrefixOf (c :: rest) then
      let after := (c :: rest).drop lit.length
      let (run, r) := after.span good
      if run.isEmpty then none
      else match closing with
        | none => some run
        | some q => if r.headD ' ' = q ∧ ¬ r.isEmpty then some run else none
    else none).orElse (fun _ => searchCapture lit good closing rest)

/-!
### `_extract_json_from_text`
-/

/-- Shape dispatch shared by both agents once a JSON value is in hand:
a list is returned as-is; a dict is unwrapped at its `results` key (the
raw value, whatever it is) or wrapped as a singleton; anything else
yields `[]`.  The result models the Python return value, so a returned
list is a `Json.arr`. -/
def extractShapeDispatch : Json → Json
  | .arr l => .arr l
  | .obj fields =>
    match jsonObjLookup fields "results" with
    | some v => v
    | none => .arr [.obj fields]
  | _ => .arr []

/-- `SODViolationDetectionAgent._extract_json_from_text`: fenced JSON,
else array pattern, else object pattern, else the whole text, else a
synthesized single record carrying the raw text (the `json.dumps` /
`json.loads` round trip on that all-string record is the identity).  Any
exception (for instance `json.loads` failing on located content) is
caught and yields `[]`. -/
def sodExtractJsonFromText (text : String) : Json :=
  let cs := text.data
  let located : Option (List Char) :=
    match sodSearchFenced cs with
    | some c => some c
    | none =>
      match searchArrayPattern cs with
      | some c => some c
      | none =>
        match searchObjectPattern cs with
        | some c => some c
        | none =>
          match jsonLoadsList cs with
          | some _ => some cs
          | none => none
  match located with
  | some c =>
    match jsonLoadsList c with
    | some v => extractShapeDispatch v
    | none => .arr []
  | none =>
    let changeId := ((searchCapture "Change_ID: ".data (fun c => c.isAlphanum) none cs).map
      String.mk).getD "Unknown"
    let assetName := ((searchCapture "Asset_Name: ".data (fun c => c.isAlphanum ∨ c = ' ') none
      cs).map String.mk).getD "Unknown"
    let status := ((searchCapture "Status: \"".data (fun c => c.isAlpha) (some '"') cs).map
      String.mk).getD "Unknown"
    .arr [.obj [("change_id", .str changeId), ("asset_name", .str assetName),
      ("status", .str status), ("exception_reason", .str text)]]

/-- One step of `re.sub(r'```(?:json)?\s*|\s*```', '', text)`: the first
alternative at the current position. -/
def fenceSubAlt1 (cs : List Char) : Option (List Char) :=
  if "```".data.isPrefixOf cs then
    let r1 := cs.drop 3
    let r2 := if "json".data.isPrefixOf r1 then r1.drop 4 else r1
    some (r2.dropWhile isJsonWs)
  else none

/-- The second alternative: whitespace then ` ``` `. -/
def fenceSubAlt2 (cs : List Char) : Option (List Char) :=
  let (w, r) := spanWs cs
  if "```".data.isPrefixOf r then some ((w.drop w.length) ++ r.drop 3) else none

/-- Global substitution loop of the fence-stripping `re.sub`. -/
def removeCodeFencesAux : Nat → List Char → List Char
  | 0, cs => cs
  | fuel + 1, cs =>
    match fenceSubAlt1 cs with
    | some rest => removeCodeFencesAux fuel rest
    | none =>
      match fenceSubAlt2 cs with
      | some rest => removeCodeFencesAux fuel rest
      | none =>
        match cs with
        | [] => []
        | c :: rest => c :: removeCodeFencesAux fuel rest

def removeCodeFences (cs : List Char) : List Char :=
  removeCodeFencesAux cs.length cs

/-- `ApproverValidationAgent._extract_json_from_text`: first strip fence
markers with `re.sub`, then the same located-content chain; with nothing
located, or with `json.loads` failing on the located content, return `[]`
(no synthesized record in this agent). -/
def approverExtractJsonFromText (text : String) : Json :=
  let cs := removeCodeFences text.data
  let located : Option (List Char) :=
    match approverSearchFenced cs with
    | some c => some c
    | none =>
      match searchArrayPattern cs with
      | some c => some c
      | none =>
        match searchObjectPattern cs with
        | some c => some c
        | none =>
          match jsonLoadsList cs with
          | some _ => some cs
          | none => none
  match located with
  | some c =>
    match jsonLoadsList c with
    | some v => extractShapeDispatch v
    | none => .arr []
  | none => .arr []

/-- A concrete joined context row used to evaluate the pipeline at
specific inputs (change `CHG1` on asset `A1`, with the four role-holder
identifiers given). -/
def mkSODRow (rid did dpid aid : String) : SODRow :=
  { Change_ID := "CHG1"
    Asset_Name := "A1"
    Change_Type := "Normal"
    Risk_Rating := "Low"
    Requestor_ID := rid
    Requestor_Name := "Alice"
    Requestor_Role := "Developer Role"
    Approver_ID := aid
    Approver_Name := "Carol"
    Approver_Role := "Approver Role"
    Developer_ID := did
    Developer_Name := "Bob"
    Developer_Role := "Developer Role"
    Deployer_ID := dpid
    Deployer_Name := "Dave"
    Deployer_Role := "Deployer Role"
    Deployment_ID := "DEP1" }

/-! Basic laws of the row operations. -/

theorem dictLookup_setKey (d : Dict) (k v k' : String) :
    dictLookup (setKey d k v) k' = if k' = k then some v else dictLookup d k' := by
  induction d with
  | nil =>
    by_cases h : k' = k
    · simp [setKey, dictLookup, h]
    · simp [setKey, dictLookup, h, Ne.symm h]
  | cons kv rest ih =>
    obtain ⟨k₀, v₀⟩ := kv
    by_cases h₀ : k₀ = k <;> by_cases h₁ : k₀ = k' <;>
      simp_all [setKey, dictLookup] <;> simp [eq_comm] at * <;> simp_all

theorem dictLookup_dropKey (d : Dict) (k k' : String) :
    dictLookup (dropKey d k) k' = if k' = k then none else dictLookup d k' := by
  induction d with
  | nil =>
    by_cases h : k' = k <;> simp [dropKey, dictLookup, h]
  | cons kv rest ih =>
    obtain ⟨k₀, v₀⟩ := kv
    by_cases h₀ : k₀ = k <;> by_cases h₁ : k₀ = k' <;>
      simp_all [dropKey, dictLookup]

theorem hasKey_setKey_self (d : Dict) (k v : String) :
    hasKey (setKey d k v) k = true := by
  simp [hasKey, dictLookup_setKey]

theorem hasKey_setKey_other (d : Dict) (k v k' : String) (h : k' ≠ k) :
    hasKey (setKey d k v) k' = hasKey d k' := by
  simp [hasKey, dictLookup_setKey, h]

theorem hasKey_dropKey_self (d : Dict) (k : String) :
    hasKey (dropKey d k) k = false := by
  simp [hasKey, dictLookup_dropKey]

theorem hasKey_dropKey_other (d : Dict) (k k' : String) (h : k' ≠ k) :
    hasKey (dropKey d k) k' = hasKey d k' := by
  simp [hasKey, dictLookup_dropKey, h]

theorem dictLookup_cons (k₀ v₀ : String) (rest : Dict) (k : String) :
    dictLookup ((k₀, v₀) :: rest) k = if k₀ = k then some v₀ else dictLookup rest k := rfl

theorem renameKey_cons (k₀ v₀ : String) (rest : Dict) (old nw : String) :
    renameKey ((k₀, v₀) :: rest) old nw =
      (if k₀ = old then (nw, v₀) else (k₀, v₀)) :: renameKey rest old nw := by
  by_cases h : k₀ = old <;> simp [renameKey, h]

theorem dictLookup_renameKey_target (d : Dict) (old nw : String)
    (hnew : hasKey d nw = false) :
    dictLookup (renameKey d old nw) nw = dictLookup d old := by
  induction d with
  | nil => rfl
  | cons kv rest ih =>
    obtain ⟨k₀, v₀⟩ := kv
    have hk₀ : ¬ k₀ = nw := by
      intro h
      simp [hasKey, dictLookup, h] at hnew
    have hrest : hasKey rest nw = false := by
      simp [hasKey, dictLookup, hk₀] at hnew ⊢
      exact hnew
    rw [renameKey_cons]
    by_cases h₀ : k₀ = old
    · rw [if_pos h₀, dictLookup_cons, if_pos rfl, dictLookup_cons, if_pos h₀]
    · rw [if_neg h₀, dictLookup_cons, if_neg hk₀, dictLookup_cons, if_neg h₀]
      exact ih hrest

theorem dictLookup_renameKey_other (d : Dict) (old nw k : String)
    (hk1 : k ≠ old) (hk2 : k ≠ nw) :
    dictLookup (renameKey d old nw) k = dictLookup d k := by
  induction d with
  | nil => rfl
  | cons kv rest ih =>
    obtain ⟨k₀, v₀⟩ := kv
    rw [renameKey_cons]
    by_cases h₀ : k₀ = old
    · rw [if_pos h₀, dictLookup_cons, if_neg (Ne.symm hk2), dictLookup_cons,
        if_neg (h₀ ▸ Ne.symm hk1)]
      exact ih
    · rw [if_neg h₀, dictLookup_cons, dictLookup_cons]
      by_cases h₁ : k₀ = k <;> simp [h₁, ih]

theorem hasKey_renameKey_other (d : Dict) (old nw k : String)
    (hk1 : k ≠ old) (hk2 : k ≠ nw) :
    hasKey (renameKey d old nw) k = hasKey d k := by
  simp [hasKey, dictLookup_renameKey_other d old nw k hk1 hk2]

theorem dictLookup_fillKey_self (d : Dict) (k v : String) :
    dictLookup (fillKey d k v) k = some ((dictLookup d k).getD v) := by
  unfold fillKey
  by_cases h : hasKey d k
  · simp [h, hasKey] at *
    obtain ⟨w, hw⟩ := Option.isSome_iff_exists.1 h
    simp [hw]
  · simp [h, dictLookup_setKey]
    simp [hasKey, Option.isSome_iff_exists] at h
    cases hx : dictLookup d k with
    | none => rfl
    | some w => exact absurd hx (h w)

theorem dictLookup_fillKey_other (d : Dict) (k v k' : String) (h : k' ≠ k) :
    dictLookup (fillKey d k v) k' = dictLookup d k' := by
  unfold fillKey
  by_cases hk : hasKey d k <;> simp [hk, dictLookup_setKey, h]

theorem hasKey_fillKey_self (d : Dict) (k v : String) :
    hasKey (fillKey d k v) k = true := by
  simp [hasKey, dictLookup_fillKey_self]

theorem hasKey_fillKey_other (d : Dict) (k v k' : String) (h : k' ≠ k) :
    hasKey (fillKey d k v) k' = hasKey d k' := by
  simp [hasKey, dictLookup_fillKey_other d k v k' h]

theorem mem_keys_of_lookup (d : Dict) (k : String) (h : (dictLookup d k).isSome) :
    k ∈ d.map Prod.fst := by
  induction d with
  | nil => simp [dictLookup] at h
  | cons kv rest ih =>
    obtain ⟨k₀, v₀⟩ := kv
    by_cases h₀ : k₀ = k
    · simp [h₀]
    · simp [dictLookup, h₀] at h
      simp [ih h]

theorem mem_firstOcc (k : String) (seen l : List String) :
    k ∈ firstOcc seen l ↔ (k ∈ l ∧ k ∉ seen) := by
  induction l generalizing seen with
  | nil => simp [firstOcc]
  | cons a rest ih =>
    have hstep : firstOcc seen (a :: rest) =
        if seen.contains a then firstOcc seen rest else a :: firstOcc (a :: seen) rest := rfl
    by_cases ha : a ∈ seen
    · rw [hstep, if_pos (List.elem_iff.2 ha), ih]
      by_cases hk : k = a
      · subst hk
        simp [ha]
      · simp [hk]
    · rw [hstep, if_neg (fun h => ha (List.elem_iff.1 h))]
      by_cases hk : k = a
      · subst hk
        simp [ha]
      · simp only [List.mem_cons, hk, false_or, ih]

theorem dfColumns_contains_of_hasKey (rs : List Dict) (r : Dict) (k : String)
    (hr : r ∈ rs) (hk : (dictLookup r k).isSome) :
    (dfColumns rs).contains k = true := by
  have hmem : k ∈ rs.flatMap (fun r => r.map Prod.fst) :=
    List.mem_flatMap.2 ⟨r, hr, mem_keys_of_lookup r k hk⟩
  exact List.elem_iff.2 ((mem_firstOcc k [] _).2 ⟨hmem, by simp⟩)

/-- Standardization never changes the identifier or status of a row. -/
theorem sodStandardizeRow_preserves (v : VRow) :
    (sodStandardizeRow v).Change_ID = v.Change_ID ∧
    (sodStandardizeRow v).Status = v.Status := by
  unfold sodStandardizeRow
  by_cases h : v.Status = some "Exception"
  · by_cases h2 : reasonParts v = [] <;> simp [h, h2]
  · simp [h]

/-!
## Claim C8 — retry exhaustion
-/

theorem callAiAttemptsAux_allFail (attempt : Nat → Except Unit (List Dict))
    (maxRetries : Nat) (hfail : ∀ n, attempt n = .error ()) :
    ∀ fuel rc, rc + fuel = maxRetries →
      callAiAttemptsAux attempt maxRetries rc fuel = ([], fuel, List.replicate (fuel - 1) 2) := by
  intro fuel
  induction fuel with
  | zero => intro rc _; rfl
  | succ f ih =>
    intro rc hrc
    have hrec := ih (rc + 1) (by omega)
    simp only [callAiAttemptsAux, hfail rc, hrec]
    cases f with
    | zero =>
      have : ¬ rc + 1 < maxRetries := by omega
      simp [this]
    | succ f' =>
      have : rc + 1 < maxRetries := by omega
      simp [this, List.replicate_succ]

/-- C8: a backend that fails (raises) on every attempt is retried exactly
`max_retries` times, with a fixed 2-second sleep between consecutive
attempts, and the client then returns an empty result list instead of
propagating the error (the model is a total function into a result
list). -/
theorem C8_retry_exhaustion (attempt : Nat → Except Unit (List Dict)) (maxRetries : Nat)
    (hfail : ∀ n, attempt n = .error ()) :
    callAiWithThreadAndRun attempt maxRetries =
      ([], maxRetries, List.replicate (maxRetries - 1) 2) := by
  unfold callAiWithThreadAndRun
  exact callAiAttemptsAux_allFail attempt maxRetries hfail maxRetries 0 (by omega)

/-- Witness for C8 at `max_retries = 3`: three attempts, two 2-second
sleeps, empty result. -/
theorem C8_retry_exhaustion_witness :
    callAiWithThreadAndRun (fun _ => .error ()) 3 = ([], 3, [2, 2]) := by
  have h := C8_retry_exhaustion (fun _ => .error ()) 3 (fun _ => rfl)
  simpa using h

/-!
## Claim C3 — behaviour when the whole run yields zero outcomes
-/

theorem approverDefaultResult_mem (original : List Dict) (reason : String) (r : Dict)
    (hr : r ∈ approverDefaultResult original reason) :
    dictLookup r "Status" = some "Unknown" ∧ dictLookup r "Reason_Code" = some reason := by
  obtain ⟨x, _, hx⟩ := List.mem_map.1 hr
  subst hx
  refine ⟨?_, ?_⟩
  · rw [dictLookup_setKey, if_neg (by decide), dictLookup_setKey, if_pos rfl]
  · rw [dictLookup_setKey, if_pos rfl]

/-- C3 (amended): with zero outcome records across all batches, the
approver workflow marks every input row `Unknown` / `"AI analysis
failed"`, one output row per input row; the SOD workflow instead stores
an empty table — zero rows — rather than one `Unknown` row per input. -/
theorem C3_zero_outcomes :
    (∀ original : List Dict,
      (approverProcessAIResults [] original).length = original.length ∧
      ∀ r ∈ approverProcessAIResults [] original,
        dictLookup r "Status" = some "Unknown" ∧
        dictLookup r "Reason_Code" = some "AI analysis failed") ∧
    (∀ merged : List SODRow, sodProcessAIResults [] merged = .ok []) := by
  refine ⟨fun original => ⟨?_, fun r hr => ?_⟩, fun merged => rfl⟩
  · simp [approverProcessAIResults, approverDefaultResult]
  · exact approverDefaultResult_mem original "AI analysis failed" r hr

/-- Witness for C3 at one concrete population row. -/
theorem C3_zero_outcomes_witness :
    (dictLookup [("Change_ID", "CHG1"), ("Status", "Unknown"),
        ("Reason_Code", "AI analysis failed")] "Status" = some "Unknown" ∧
      dictLookup [("Change_ID", "CHG1"), ("Status", "Unknown"),
        ("Reason_Code", "AI analysis failed")] "Reason_Code" = some "AI analysis failed") ∧
    sodProcessAIResults [] [mkSODRow "U1" "U2" "U3" "U4"] = .ok [] :=
  ⟨(C3_zero_outcomes.1 [[("Change_ID", "CHG1")]]).2 _ (by decide),
    C3_zero_outcomes.2 [mkSODRow "U1" "U2" "U3" "U4"]⟩

/-- Counterexample for C3 as stated: in the SOD workflow a zero-outcome
run produces zero rows, not one `Unknown` / `"AI analysis failed"` row
per input row. -/
theorem C3_counterexample :
    sodProcessAIResults [] [mkSODRow "U1" "U2" "U3" "U4"] = .ok [] ∧
    ([] : List VRow).length ≠ [mkSODRow "U1" "U2" "U3" "U4"].length :=
  ⟨rfl, by decide⟩

/-!
## Approver merge-path lemmas
-/

theorem ne_of_strToLower {a t s : String} (ha : strToLower a = s) (ht : strToLower t ≠ s) :
    a ≠ t := by
  intro h
  exact ht (h ▸ ha)

theorem strToLower_ne_of {a t s : String} (ha : strToLower a = s) (ht : strToLower t ≠ s) :
    t ≠ a :=
  fun h => (ne_of_strToLower ha ht) h.symm

theorem dictLookup_dropHelperCols (L : Dict) (k : String)
    (h1 : k ≠ "IAM_User_IDs") (h2 : k ≠ "IAM_Approver_IDs")
    (h3 : k ≠ "IT_BU_Manager_IDs") (h4 : k ≠ "IAM_Data") :
    dictLookup (dropHelperCols L) k = dictLookup L k := by
  unfold dropHelperCols
  rw [dictLookup_dropKey, if_neg h4, dictLookup_dropKey, if_neg h3,
    dictLookup_dropKey, if_neg h2, dictLookup_dropKey, if_neg h1]

theorem hasKey_dropHelperCols_helper (L : Dict) :
    hasKey (dropHelperCols L) "IAM_User_IDs" = false ∧
    hasKey (dropHelperCols L) "IAM_Approver_IDs" = false ∧
    hasKey (dropHelperCols L) "IT_BU_Manager_IDs" = false := by
  unfold dropHelperCols
  refine ⟨?_, ?_, ?_⟩ <;>
    simp [hasKey, dictLookup_dropKey]

theorem find?_isEmpty_false {p : String → Bool} {results : List Dict} {c : String}
    (h : (dfColumns results).find? p = some c) : results.isEmpty = false := by
  cases results with
  | nil => simp [dfColumns, firstOcc] at h
  | cons a rest => rfl

/-- Unfolding of the approver result processing on the merge path. -/
theorem approverProcess_merge_eq (results original : List Dict) (cidc sc rcc : String)
    (h1 : (dfColumns results).find? (fun c => strToLower c = "change_id") = some cidc)
    (h2 : (dfColumns results).find? (fun c => strToLower c = "status") = some sc)
    (h3 : (dfColumns results).find? (fun c => strToLower c = "reason_code") = some rcc) :
    approverProcessAIResults results original =
      ((original.map dropHelperCols).flatMap (approverMergeRow results cidc sc rcc)).map
        (approverPostRow cidc sc rcc) := by
  unfold approverProcessAIResults
  rw [find?_isEmpty_false h1]
  simp [h1, h2, h3]

/-- Unfolding of the approver result processing on the missing-columns
path. -/
theorem approverProcess_missing_eq (results original : List Dict)
    (hne : results.isEmpty = false)
    (h : (dfColumns results).find? (fun c => strToLower c = "change_id") = none ∨
      (dfColumns results).find? (fun c => strToLower c = "status") = none ∨
      (dfColumns results).find? (fun c => strToLower c = "reason_code") = none) :
    approverProcessAIResults results original =
      approverDefaultResult original "AI results missing required columns" := by
  unfold approverProcessAIResults
  rw [hne]
  cases hf1 : (dfColumns results).find? (fun c => strToLower c = "change_id") with
  | none => simp [hf1]
  | some cidc =>
    cases hf2 : (dfColumns results).find? (fun c => strToLower c = "status") with
    | none => simp [hf1, hf2]
    | some sc =>
      cases hf3 : (dfColumns results).find? (fun c => strToLower c = "reason_code") with
      | none => simp [hf1, hf2, hf3]
      | some rcc =>
        rcases h with h | h | h <;> simp_all

/-- Identifier preservation through the post-merge column steps. -/
theorem approverPostRow_CID (cidc sc rcc : String) (X : Dict)
    (hs : strToLower sc = "status") (hr : strToLower rcc = "reason_code") :
    dictLookup (approverPostRow cidc sc rcc X) "Change_ID" = dictLookup X "Change_ID" := by
  have hfRC : ∀ d : Dict,
      dictLookup (fillKey d "Reason_Code" "Record not analyzed") "Change_ID" =
        dictLookup d "Change_ID" :=
    fun d => dictLookup_fillKey_other d _ _ _ (by decide)
  have hfS : ∀ d : Dict,
      dictLookup (fillKey d "Status" "Unknown") "Change_ID" = dictLookup d "Change_ID" :=
    fun d => dictLookup_fillKey_other d _ _ _ (by decide)
  have hcondR : ∀ d : Dict,
      dictLookup (if rcc = "Reason_Code" then d else renameKey d rcc "Reason_Code")
        "Change_ID" = dictLookup d "Change_ID" := by
    intro d
    by_cases h : rcc = "Reason_Code"
    · rw [if_pos h]
    · rw [if_neg h,
        dictLookup_renameKey_other d rcc "Reason_Code" "Change_ID"
          (strToLower_ne_of hr (by decide)) (by decide)]
  have hcondS : ∀ d : Dict,
      dictLookup (if sc = "Status" then d else renameKey d sc "Status") "Change_ID" =
        dictLookup d "Change_ID" := by
    intro d
    by_cases h : sc = "Status"
    · rw [if_pos h]
    · rw [if_neg h,
        dictLookup_renameKey_other d sc "Status" "Change_ID"
          (strToLower_ne_of hs (by decide)) (by decide)]
  have hcondD : ∀ d : Dict,
      dictLookup (if cidc = "Change_ID" then d else dropKey d cidc) "Change_ID" =
        dictLookup d "Change_ID" := by
    intro d
    by_cases h : cidc = "Change_ID"
    · rw [if_pos h]
    · rw [if_neg h, dictLookup_dropKey, if_neg (Ne.symm h)]
  simp only [approverPostRow, hfRC, hfS, hcondR, hcondS, hcondD]

/-!
## SOD reconciliation lemmas
-/

theorem collectChangeIds_ok (results : List Dict)
    (h : ∀ r ∈ results, (dictLookup r "change_id").isSome) :
    collectChangeIds results = .ok (sodCids results) := by
  induction results with
  | nil => rfl
  | cons a rest ih =>
    obtain ⟨v, hv⟩ := Option.isSome_iff_exists.1 (h a (by simp))
    have hrest := ih (fun r hr => h r (by simp [hr]))
    simp [collectChangeIds, hv, hrest, sodCids, Except.map]

theorem collectChangeIds_err (results : List Dict) (r : Dict) (hr : r ∈ results)
    (h : dictLookup r "change_id" = none) :
    collectChangeIds results = .error () := by
  induction results with
  | nil => simp at hr
  | cons a rest ih =>
    rcases List.mem_cons.1 hr with h₀ | h₀
    · subst h₀
      simp [collectChangeIds, h]
    · cases ha : dictLookup a "change_id" with
      | none => simp [collectChangeIds, ha]
      | some v => simp [collectChangeIds, ha, ih h₀, Except.map]

theorem isEmpty_false_of_ne_nil {l : List Dict} (h : l ≠ []) : l.isEmpty = false := by
  cases l with
  | nil => exact absurd rfl h
  | cons a rest => rfl

/-- Unfolding of the SOD result processing when every result dict carries
the three lowercase keys. -/
theorem sodProcess_eq (results : List Dict) (merged : List SODRow)
    (hne : results ≠ [])
    (hkeys : ∀ r ∈ results, (dictLookup r "change_id").isSome ∧
      (dictLookup r "asset_name").isSome ∧ (dictLookup r "status").isSome) :
    sodProcessAIResults results merged =
      .ok (((results ++ sodSynthRecords results merged).flatMap (sodMergeRow merged)).map
        sodStandardizeRow) := by
  obtain ⟨r₀, hr₀⟩ : ∃ r₀, r₀ ∈ results := by
    cases results with
    | nil => exact absurd rfl hne
    | cons a rest => exact ⟨a, by simp⟩
  have hc1 := dfColumns_contains_of_hasKey (results ++ sodSynthRecords results merged) r₀
    "change_id" (List.mem_append_left _ hr₀) (hkeys r₀ hr₀).1
  have hc2 := dfColumns_contains_of_hasKey (results ++ sodSynthRecords results merged) r₀
    "asset_name" (List.mem_append_left _ hr₀) (hkeys r₀ hr₀).2.1
  have hc3 := dfColumns_contains_of_hasKey (results ++ sodSynthRecords results merged) r₀
    "status" (List.mem_append_left _ hr₀) (hkeys r₀ hr₀).2.2
  unfold sodProcessAIResults
  rw [isEmpty_false_of_ne_nil hne]
  rw [show collectChangeIds results = .ok (sodCids results) from
    collectChangeIds_ok results (fun r hr => (hkeys r hr).1)]
  simp only [Bind.bind, Except.bind]
  simp only [sodMissingIds, sodSynthRecords] at hc1 hc2 hc3
  rw [if_neg (not_not_intro hc1), if_neg (not_not_intro hc2), if_neg (not_not_intro hc3)]
  simp only [sodSynthRecords, sodMissingIds]
  simp

theorem sodFilter_eq_singleton (merged : List SODRow) (p : SODRow → Bool) (m : SODRow)
    (hm : m ∈ merged) (hpm : p m = true)
    (hkey : ∀ x, p x = true → x.Change_ID = m.Change_ID)
    (hnd : (merged.map (·.Change_ID)).Nodup) :
    merged.filter p = [m] := by
  induction merged with
  | nil => simp at hm
  | cons a rest ih =>
    rw [List.map_cons, List.nodup_cons] at hnd
    cases hpa : p a with
    | true =>
      have hak : a.Change_ID = m.Change_ID := hkey a hpa
      rcases List.mem_cons.1 hm with h₀ | h₀
      · subst h₀
        have hnil : rest.filter p = [] := by
          rw [List.filter_eq_nil_iff]
          intro x hx hpx
          exact hnd.1 (hak ▸ (hkey x hpx) ▸ List.mem_map_of_mem (·.Change_ID) hx)
        simp [List.filter_cons, hpa, hnil]
      · exact absurd (hak ▸ List.mem_map_of_mem (·.Change_ID) h₀) hnd.1
    | false =>
      have h₀ : m ∈ rest := by
        rcases List.mem_cons.1 hm with h | h
        · subst h; rw [hpm] at hpa; cases hpa
        · exact h
      simp [List.filter_cons, hpa, ih h₀ hnd.2]

/-- When a result dict matches exactly the (unique) joined row `m`, the
left merge yields the single combined row. -/
theorem sodMergeRow_eq_singleton (merged : List SODRow) (r : Dict) (m : SODRow)
    (hm : m ∈ merged)
    (hcid : dictLookup r "change_id" = some m.Change_ID)
    (han : dictLookup r "asset_name" = some m.Asset_Name)
    (hnd : (merged.map (·.Change_ID)).Nodup) :
    sodMergeRow merged r = [sodMkVRow r (some m)] := by
  have hfil : merged.filter (fun m' =>
      dictLookup r "change_id" = some m'.Change_ID ∧
        dictLookup r "asset_name" = some m'.Asset_Name) = [m] := by
    apply sodFilter_eq_singleton merged _ m hm
    · simp [hcid, han]
    · intro x hx
      simp only [decide_eq_true_eq] at hx
      exact Option.some.inj (hx.1.symm.trans hcid)
    · exact hnd
  unfold sodMergeRow
  rw [hfil]
  simp

theorem flatMap_map_single {α β γ : Type} (l : List α) (g : α → List β) (f : β → γ)
    (e : α → γ) (h : ∀ x ∈ l, (g x).map f = [e x]) :
    (l.flatMap g).map f = l.map e := by
  induction l with
  | nil => rfl
  | cons a rest ih =>
    rw [List.flatMap_cons, List.map_append, h a (by simp), List.map_cons,
      ih (fun x hx => h x (by simp [hx]))]
    rfl

theorem sodSynthRecord_lookups (m : SODRow) :
    dictLookup (sodSynthRecord m) "change_id" = some m.Change_ID ∧
    dictLookup (sodSynthRecord m) "asset_name" = some m.Asset_Name ∧
    dictLookup (sodSynthRecord m) "status" = some "Unknown" ∧
    dictLookup (sodSynthRecord m) "exception_reason" =
      some "Record not processed by AI analysis" := by
  refine ⟨rfl, rfl, rfl, rfl⟩

theorem sodSynthRecords_cids (results : List Dict) (merged : List SODRow) :
    (sodSynthRecords results merged).map (fun r => dictLookup r "change_id") =
      (sodMissingIds results merged).map some := by
  unfold sodSynthRecords
  have hmem : ∀ mid ∈ sodMissingIds results merged, mid ∈ merged.map (·.Change_ID) := by
    intro mid hmid
    have := List.mem_dedup.1 hmid
    exact List.mem_of_mem_filter this
  revert hmem
  generalize sodMissingIds results merged = ms
  intro hmem
  induction ms with
  | nil => rfl
  | cons a rest ih =>
    have ha : ∃ m, merged.find? (fun m' => m'.Change_ID = a) = some m := by
      obtain ⟨m, hm, hma⟩ := List.mem_map.1 (hmem a (by simp))
      have : (merged.find? (fun m' => m'.Change_ID = a)).isSome :=
        List.find?_isSome.2 ⟨m, hm, by simp [hma]⟩
      exact Option.isSome_iff_exists.1 this
    obtain ⟨m, hm⟩ := ha
    have hma : m.Change_ID = a := by
      have := List.find?_some hm
      simpa using this
    simp [List.filterMap_cons, hm, hma, (sodSynthRecord_lookups m).1,
      ih (fun mid hmid => hmem mid (by simp [hmid]))]

theorem sodSynthRecords_keys (results : List Dict) (merged : List SODRow) (r : Dict)
    (hr : r ∈ sodSynthRecords results merged) :
    ∃ m ∈ merged, r = sodSynthRecord m := by
  obtain ⟨mid, _, hmid⟩ := List.mem_filterMap.1 hr
  cases hfind : merged.find? (fun m' => m'.Change_ID = mid) with
  | none => rw [hfind] at hmid; cases hmid
  | some m =>
    rw [hfind] at hmid
    exact ⟨m, List.mem_of_find?_eq_some hfind, (Option.some.inj hmid).symm⟩

theorem hasKey_dropHelperCols_other (L : Dict) (k : String)
    (h1 : k ≠ "IAM_User_IDs") (h2 : k ≠ "IAM_Approver_IDs")
    (h3 : k ≠ "IT_BU_Manager_IDs") (h4 : k ≠ "IAM_Data") :
    hasKey (dropHelperCols L) k = hasKey L k := by
  simp [hasKey, dictLookup_dropHelperCols L k h1 h2 h3 h4]

/-- The canonical status value produced by the post-merge column steps:
the value the located status column carried, with `Unknown` filled in
for `NaN`. -/
theorem approverPostRow_Status (cidc sc rcc : String) (X : Dict)
    (hc : strToLower cidc = "change_id") (hs : strToLower sc = "status")
    (hr : strToLower rcc = "reason_code")
    (hX : hasKey X "Status" = false ∨ sc = "Status") :
    dictLookup (approverPostRow cidc sc rcc X) "Status" =
      some ((dictLookup X sc).getD "Unknown") := by
  have hscne : sc ≠ cidc := ne_of_strToLower hs (by rw [hc]; decide)
  have hsrc : ("Status" : String) ≠ rcc := strToLower_ne_of hr (by decide)
  have hstc : ("Status" : String) ≠ cidc := strToLower_ne_of hc (by decide)
  have step1 : dictLookup (if cidc = "Change_ID" then X else dropKey X cidc) sc =
      dictLookup X sc := by
    by_cases h : cidc = "Change_ID"
    · rw [if_pos h]
    · rw [if_neg h, dictLookup_dropKey, if_neg hscne]
  have hkey1 : hasKey (if cidc = "Change_ID" then X else dropKey X cidc) "Status" =
      hasKey X "Status" := by
    by_cases h : cidc = "Change_ID"
    · rw [if_pos h]
    · rw [if_neg h, hasKey_dropKey_other _ _ _ hstc]
  have step2 : dictLookup
      (if sc = "Status" then (if cidc = "Change_ID" then X else dropKey X cidc)
        else renameKey (if cidc = "Change_ID" then X else dropKey X cidc) sc "Status")
      "Status" = dictLookup X sc := by
    by_cases h : sc = "Status"
    · rw [if_pos h, ← h, step1]
    · rcases hX with hk | hk
      · rw [if_neg h, dictLookup_renameKey_target _ _ _ (hkey1.trans hk), step1]
      · exact absurd hk h
  simp only [approverPostRow]
  rw [dictLookup_fillKey_other _ _ _ _ (by decide), dictLookup_fillKey_self]
  by_cases h3 : rcc = "Reason_Code"
  · rw [if_pos h3, step2]
  · rw [if_neg h3,
      dictLookup_renameKey_other _ _ _ _ hsrc (by decide), step2]

/-- The canonical reason value produced by the post-merge column steps. -/
theorem approverPostRow_RC (cidc sc rcc : String) (X : Dict)
    (hc : strToLower cidc = "change_id") (hs : strToLower sc = "status")
    (hr : strToLower rcc = "reason_code")
    (hX : hasKey X "Reason_Code" = false ∨ rcc = "Reason_Code") :
    dictLookup (approverPostRow cidc sc rcc X) "Reason_Code" =
      some ((dictLookup X rcc).getD "Record not analyzed") := by
  have hrcc_cid : rcc ≠ cidc := ne_of_strToLower hr (by rw [hc]; decide)
  have hrcc_sc : rcc ≠ sc := ne_of_strToLower hr (by rw [hs]; decide)
  have hrcc_st : rcc ≠ "Status" := ne_of_strToLower hr (by decide)
  have hrc_sc : ("Reason_Code" : String) ≠ sc := strToLower_ne_of hs (by decide)
  have hrc_cid : ("Reason_Code" : String) ≠ cidc := strToLower_ne_of hc (by decide)
  have step1 : dictLookup (if cidc = "Change_ID" then X else dropKey X cidc) rcc =
      dictLookup X rcc := by
    by_cases h : cidc = "Change_ID"
    · rw [if_pos h]
    · rw [if_neg h, dictLookup_dropKey, if_neg hrcc_cid]
  have hkey1 : hasKey (if cidc = "Change_ID" then X else dropKey X cidc) "Reason_Code" =
      hasKey X "Reason_Code" := by
    by_cases h : cidc = "Change_ID"
    · rw [if_pos h]
    · rw [if_neg h, hasKey_dropKey_other _ _ _ hrc_cid]
  have step2 : dictLookup
      (if sc = "Status" then (if cidc = "Change_ID" then X else dropKey X cidc)
        else renameKey (if cidc = "Change_ID" then X else dropKey X cidc) sc "Status")
      rcc = dictLookup X rcc := by
    by_cases h : sc = "Status"
    · rw [if_pos h, step1]
    · rw [if_neg h, dictLookup_renameKey_other _ _ _ _ hrcc_sc hrcc_st, step1]
  have hkey2 : hasKey
      (if sc = "Status" then (if cidc = "Change_ID" then X else dropKey X cidc)
        else renameKey (if cidc = "Change_ID" then X else dropKey X cidc) sc "Status")
      "Reason_Code" = hasKey X "Reason_Code" := by
    by_cases h : sc = "Status"
    · rw [if_pos h, hkey1]
    · rw [if_neg h, hasKey_renameKey_other _ _ _ _ hrc_sc (by decide), hkey1]
  simp only [approverPostRow]
  rw [dictLookup_fillKey_self, dictLookup_fillKey_other _ _ _ _ (by decide)]
  by_cases h3 : rcc = "Reason_Code"
  · rw [if_pos h3, ← h3, step2]
  · rcases hX with hk | hk
    · rw [if_neg h3, dictLookup_renameKey_target _ _ _ (hkey2.trans hk), step2]
    · exact absurd hk h3

/-- Identifier preservation through the per-row merge attachment. -/
theorem approverAttach_CID (cidc sc rcc : String) (L r : Dict)
    (hs : strToLower sc = "status") (hr : strToLower rcc = "reason_code") :
    dictLookup (approverAttach cidc sc rcc L r) "Change_ID" = dictLookup L "Change_ID" := by
  have h1 : ("Change_ID" : String) ≠ sc := strToLower_ne_of hs (by decide)
  have h2 : ("Change_ID" : String) ≠ rcc := strToLower_ne_of hr (by decide)
  unfold approverAttach
  have step1 : dictLookup (if cidc = "Change_ID" then L
      else match dictLookup r cidc with
        | some v => setKey L cidc v
        | none => L) "Change_ID" = dictLookup L "Change_ID" := by
    by_cases h : cidc = "Change_ID"
    · rw [if_pos h]
    · rw [if_neg h]
      cases dictLookup r cidc with
      | none => rfl
      | some v => rw [dictLookup_setKey, if_neg (Ne.symm h)]
  generalize hL1 : (if cidc = "Change_ID" then L
      else match dictLookup r cidc with
        | some v => setKey L cidc v
        | none => L) = L1
  rw [hL1] at step1
  cases hsv : dictLookup r sc with
  | none =>
    cases hrv : dictLookup r rcc with
    | none => exact step1
    | some w => rw [dictLookup_setKey, if_neg h2]; exact step1
  | some v =>
    cases hrv : dictLookup r rcc with
    | none => rw [dictLookup_setKey, if_neg h1]; exact step1
    | some w =>
      rw [dictLookup_setKey, if_neg h2, dictLookup_setKey, if_neg h1]
      exact step1

/-- The attached status and reason values. -/
theorem approverAttach_vals (cidc sc rcc : String) (L r : Dict) (v w : String)
    (hs : strToLower sc = "status") (hr : strToLower rcc = "reason_code")
    (hv : dictLookup r sc = some v) (hw : dictLookup r rcc = some w) :
    dictLookup (approverAttach cidc sc rcc L r) sc = some v ∧
    dictLookup (approverAttach cidc sc rcc L r) rcc = some w := by
  have hne : rcc ≠ sc := ne_of_strToLower hr (by rw [hs]; decide)
  unfold approverAttach
  rw [hv, hw]
  constructor
  · rw [dictLookup_setKey, if_neg (Ne.symm hne), dictLookup_setKey, if_pos rfl]
  · rw [dictLookup_setKey, if_pos rfl]

/-- Keys the attachment step can add are only the three located result
columns. -/
theorem hasKey_approverAttach_other (cidc sc rcc : String) (L r : Dict) (k : String)
    (h1 : k ≠ cidc) (h2 : k ≠ sc) (h3 : k ≠ rcc) :
    hasKey (approverAttach cidc sc rcc L r) k = hasKey L k := by
  unfold approverAttach
  have step1 : hasKey (if cidc = "Change_ID" then L
      else match dictLookup r cidc with
        | some v => setKey L cidc v
        | none => L) k = hasKey L k := by
    by_cases h : cidc = "Change_ID"
    · rw [if_pos h]
    · rw [if_neg h]
      cases dictLookup r cidc with
      | none => rfl
      | some v => rw [hasKey_setKey_other _ _ _ _ h1]
  generalize hL1 : (if cidc = "Change_ID" then L
      else match dictLookup r cidc with
        | some v => setKey L cidc v
        | none => L) = L1
  rw [hL1] at step1
  cases hsv : dictLookup r sc with
  | none =>
    cases hrv : dictLookup r rcc with
    | none => exact step1
    | some w => rw [hasKey_setKey_other _ _ _ _ h3]; exact step1
  | some v =>
    cases hrv : dictLookup r rcc with
    | none => rw [hasKey_setKey_other _ _ _ _ h2]; exact step1
    | some w =>
      rw [hasKey_setKey_other _ _ _ _ h3, hasKey_setKey_other _ _ _ _ h2]
      exact step1

theorem lookup_eq_none_of_hasKey_false (d : Dict) (k : String) (h : hasKey d k = false) :
    dictLookup d k = none := by
  cases h' : dictLookup d k with
  | none => rfl
  | some v => rw [hasKey, h'] at h; cases h

theorem sodStandardizeRow_eq_self (v : VRow) (h : v.Status ≠ some "Exception") :
    sodStandardizeRow v = v := by
  unfold sodStandardizeRow
  rw [if_neg h]

/-!
## Claim C4 — gap classification of rows the backend omitted
-/

/-- C4 (amended): a row whose identifier is absent from the collected
outcomes (the run having produced outcomes with the required fields) is
synthesized with status `Unknown`; its reason is exactly `"Record not
processed by AI analysis"` in the SOD workflow, but exactly
`"Record not analyzed"` in the approver workflow — in both cases the
"not processed" variant rather than the "schema missing" variant. -/
theorem C4_gap_reason :
    (∀ (results : List Dict) (merged : List SODRow) (m₀ : SODRow),
      results ≠ [] →
      (∀ r ∈ results, (dictLookup r "change_id").isSome ∧
        (dictLookup r "asset_name").isSome ∧ (dictLookup r "status").isSome) →
      (merged.map (·.Change_ID)).Nodup →
      m₀ ∈ merged →
      (! (sodCids results).contains m₀.Change_ID) = true →
      ∃ out, sodProcessAIResults results merged = .ok out ∧
        ∃ v ∈ out, v.Change_ID = some m₀.Change_ID ∧ v.Status = some "Unknown" ∧
          v.Exception_Reason = some "Record not processed by AI analysis") ∧
    (∀ (results original : List Dict) (L : Dict) (cidc sc rcc : String),
      (dfColumns results).find? (fun c => strToLower c = "change_id") = some cidc →
      (dfColumns results).find? (fun c => strToLower c = "status") = some sc →
      (dfColumns results).find? (fun c => strToLower c = "reason_code") = some rcc →
      L ∈ original →
      results.filter (fun r => optValEq (dictLookup L "Change_ID") (dictLookup r cidc)) = [] →
      hasKey L "Status" = false → hasKey L sc = false →
      hasKey L "Reason_Code" = false → hasKey L rcc = false →
      ∃ row ∈ approverProcessAIResults results original,
        dictLookup row "Change_ID" = dictLookup L "Change_ID" ∧
        dictLookup row "Status" = some "Unknown" ∧
        dictLookup row "Reason_Code" = some "Record not analyzed") := by
  constructor
  · intro results merged m₀ hne hkeys hnd hm₀ hmiss
    have heq := sodProcess_eq results merged hne hkeys
    refine ⟨_, heq, ?_⟩
    have hmidA : m₀.Change_ID ∈ merged.map (·.Change_ID) :=
      List.mem_map_of_mem (·.Change_ID) hm₀
    have hmid : m₀.Change_ID ∈ sodMissingIds results merged := by
      unfold sodMissingIds
      exact List.mem_dedup.2 (List.mem_filter.2 ⟨hmidA, hmiss⟩)
    have hfindSome : (merged.find? (fun m' => m'.Change_ID = m₀.Change_ID)).isSome :=
      List.find?_isSome.2 ⟨m₀, hm₀, by simp⟩
    obtain ⟨m', hfind⟩ := Option.isSome_iff_exists.1 hfindSome
    have hm'mem : m' ∈ merged := List.mem_of_find?_eq_some hfind
    have hm'id : m'.Change_ID = m₀.Change_ID := by simpa using List.find?_some hfind
    have hsynthMem : sodSynthRecord m' ∈ sodSynthRecords results merged :=
      List.mem_filterMap.2 ⟨m₀.Change_ID, hmid, by rw [hfind]; rfl⟩
    have hr' : sodSynthRecord m' ∈ results ++ sodSynthRecords results merged :=
      List.mem_append_right _ hsynthMem
    have hmerge := sodMergeRow_eq_singleton merged (sodSynthRecord m') m' hm'mem
      (sodSynthRecord_lookups m').1 (sodSynthRecord_lookups m').2.1 hnd
    have hvstat : (sodMkVRow (sodSynthRecord m') (some m')).Status = some "Unknown" := by
      show dictLookup (sodSynthRecord m') "status" = some "Unknown"
      exact (sodSynthRecord_lookups m').2.2.1
    refine ⟨sodStandardizeRow (sodMkVRow (sodSynthRecord m') (some m')), ?_, ?_, ?_, ?_⟩
    · exact List.mem_map_of_mem _ (List.mem_flatMap.2 ⟨sodSynthRecord m', hr',
        by rw [hmerge]; simp⟩)
    · rw [(sodStandardizeRow_preserves _).1]
      show (some m').map (·.Change_ID) = some m₀.Change_ID
      simp [hm'id]
    · rw [(sodStandardizeRow_preserves _).2, hvstat]
    · rw [sodStandardizeRow_eq_self _ (by rw [hvstat]; decide)]
      show dictLookup (sodSynthRecord m') "exception_reason" =
        some "Record not processed by AI analysis"
      exact (sodSynthRecord_lookups m').2.2.2
  · intro results original L cidc sc rcc h1 h2 h3 hL hnm hLs hLsc hLrc hLrcc
    have hcl : strToLower cidc = "change_id" := by simpa using List.find?_some h1
    have hsl : strToLower sc = "status" := by simpa using List.find?_some h2
    have hrl : strToLower rcc = "reason_code" := by simpa using List.find?_some h3
    rw [approverProcess_merge_eq results original cidc sc rcc h1 h2 h3]
    have hCID' : dictLookup (dropHelperCols L) "Change_ID" = dictLookup L "Change_ID" :=
      dictLookup_dropHelperCols L _ (by decide) (by decide) (by decide) (by decide)
    have hmr : approverMergeRow results cidc sc rcc (dropHelperCols L) =
        [dropHelperCols L] := by
      unfold approverMergeRow
      rw [show (fun r => optValEq (dictLookup (dropHelperCols L) "Change_ID")
          (dictLookup r cidc)) =
          (fun r => optValEq (dictLookup L "Change_ID") (dictLookup r cidc)) from by
        funext r; rw [hCID'], hnm]
      rfl
    refine ⟨approverPostRow cidc sc rcc (dropHelperCols L), ?_, ?_, ?_, ?_⟩
    · exact List.mem_map_of_mem _ (List.mem_flatMap.2
        ⟨dropHelperCols L, List.mem_map_of_mem _ hL, by rw [hmr]; simp⟩)
    · rw [approverPostRow_CID _ _ _ _ hsl hrl, hCID']
    · rw [approverPostRow_Status _ _ _ _ hcl hsl hrl
        (Or.inl (by rw [hasKey_dropHelperCols_other L _ (by decide) (by decide) (by decide)
          (by decide)]; exact hLs))]
      rw [show dictLookup (dropHelperCols L) sc = dictLookup L sc from
        dictLookup_dropHelperCols L sc
          (ne_of_strToLower hsl (by decide)) (ne_of_strToLower hsl (by decide))
          (ne_of_strToLower hsl (by decide)) (ne_of_strToLower hsl (by decide))]
      rw [lookup_eq_none_of_hasKey_false L sc hLsc]
      rfl
    · rw [approverPostRow_RC _ _ _ _ hcl hsl hrl
        (Or.inl (by rw [hasKey_dropHelperCols_other L _ (by decide) (by decide) (by decide)
          (by decide)]; exact hLrc))]
      rw [show dictLookup (dropHelperCols L) rcc = dictLookup L rcc from
        dictLookup_dropHelperCols L rcc
          (ne_of_strToLower hrl (by decide)) (ne_of_strToLower hrl (by decide))
          (ne_of_strToLower hrl (by decide)) (ne_of_strToLower hrl (by decide))]
      rw [lookup_eq_none_of_hasKey_false L rcc hLrcc]
      rfl

/-- Witness for C4: one omitted identifier in each workflow. -/
theorem C4_gap_reason_witness :
    (∃ out, sodProcessAIResults
        [[("change_id", "CHG9"), ("asset_name", "A9"), ("status", "OK"),
          ("exception_reason", "")]] [mkSODRow "U1" "U2" "U3" "U4"] = .ok out ∧
      ∃ v ∈ out, v.Change_ID = some (mkSODRow "U1" "U2" "U3" "U4").Change_ID ∧
        v.Status = some "Unknown" ∧
        v.Exception_Reason = some "Record not processed by AI analysis") ∧
    (∃ row ∈ approverProcessAIResults
        [[("CHANGE_ID", "CHG2"), ("status", "OK"), ("Reason_Code", "Valid approver")]]
        [[("Change_ID", "CHG1")]],
      dictLookup row "Change_ID" = dictLookup [("Change_ID", "CHG1")] "Change_ID" ∧
      dictLookup row "Status" = some "Unknown" ∧
      dictLookup row "Reason_Code" = some "Record not analyzed") :=
  ⟨C4_gap_reason.1 _ [mkSODRow "U1" "U2" "U3" "U4"] (mkSODRow "U1" "U2" "U3" "U4")
      (by decide) (by decide) (by decide) (by decide) (by decide),
    C4_gap_reason.2 _ [[("Change_ID", "CHG1")]] [("Change_ID", "CHG1")]
      "CHANGE_ID" "status" "Reason_Code" (by decide) (by decide) (by decide) (by decide)
      (by decide) (by decide) (by decide) (by decide) (by decide)⟩

/-- Counterexample for C4 as stated: in the approver workflow the
synthesized reason is `"Record not analyzed"`, not
`"Record not processed by AI analysis"`. -/
theorem C4_counterexample :
    (approverProcessAIResults
        [[("Change_ID", "CHG2"), ("Status", "OK"), ("Reason_Code", "Valid approver")]]
        [[("Change_ID", "CHG1")]]).map (fun r => dictLookup r "Reason_Code") =
      [some "Record not analyzed"] ∧
    ("Record not analyzed" : String) ≠ "Record not processed by AI analysis" :=
  ⟨by decide, by decide⟩

/-!
## Claim C7 — case-insensitive field location
-/

/-- C7 (amended): in the approver workflow the three canonical columns
are located case-insensitively and populate the canonical `Status` /
`Reason_Code` fields of the matched rows; if any of the three cannot be
located, every row is marked `Unknown` / `"AI results missing required
columns"`.  The SOD workflow, by contrast, accesses
`result['change_id']` with exact lowercase spelling: a result set whose
dicts lack that exact key makes result processing raise (caught by its
caller, which marks the run failed), rather than populating fields or
gap-filling. -/
theorem C7_case_insensitive_fields :
    (∀ (results original : List Dict) (L r0 : Dict) (cidc sc rcc v w : String),
      (dfColumns results).find? (fun c => strToLower c = "change_id") = some cidc →
      (dfColumns results).find? (fun c => strToLower c = "status") = some sc →
      (dfColumns results).find? (fun c => strToLower c = "reason_code") = some rcc →
      L ∈ original →
      results.filter (fun r => optValEq (dictLookup L "Change_ID") (dictLookup r cidc)) =
        [r0] →
      dictLookup r0 sc = some v →
      dictLookup r0 rcc = some w →
      hasKey L "Status" = false → hasKey L sc = false →
      hasKey L "Reason_Code" = false → hasKey L rcc = false →
      ∃ row ∈ approverProcessAIResults results original,
        dictLookup row "Change_ID" = dictLookup L "Change_ID" ∧
        dictLookup row "Status" = some v ∧
        dictLookup row "Reason_Code" = some w) ∧
    (∀ results original : List Dict,
      results.isEmpty = false →
      ((dfColumns results).find? (fun c => strToLower c = "change_id") = none ∨
        (dfColumns results).find? (fun c => strToLower c = "status") = none ∨
        (dfColumns results).find? (fun c => strToLower c = "reason_code") = none) →
      (approverProcessAIResults results original).length = original.length ∧
      ∀ row ∈ approverProcessAIResults results original,
        dictLookup row "Status" = some "Unknown" ∧
        dictLookup row "Reason_Code" = some "AI results missing required columns") ∧
    (∀ (results : List Dict) (merged : List SODRow) (r : Dict),
      r ∈ results →
      dictLookup r "change_id" = none →
      sodProcessAIResults results merged = .error ()) := by
  refine ⟨?_, ?_, ?_⟩
  · intro results original L r0 cidc sc rcc v w h1 h2 h3 hL hfil hv hw hLs hLsc hLrc hLrcc
    have hcl : strToLower cidc = "change_id" := by simpa using List.find?_some h1
    have hsl : strToLower sc = "status" := by simpa using List.find?_some h2
    have hrl : strToLower rcc = "reason_code" := by simpa using List.find?_some h3
    rw [approverProcess_merge_eq results original cidc sc rcc h1 h2 h3]
    have hCID' : dictLookup (dropHelperCols L) "Change_ID" = dictLookup L "Change_ID" :=
      dictLookup_dropHelperCols L _ (by decide) (by decide) (by decide) (by decide)
    have hmr : approverMergeRow results cidc sc rcc (dropHelperCols L) =
        [approverAttach cidc sc rcc (dropHelperCols L) r0] := by
      unfold approverMergeRow
      rw [show (fun r => optValEq (dictLookup (dropHelperCols L) "Change_ID")
          (dictLookup r cidc)) =
          (fun r => optValEq (dictLookup L "Change_ID") (dictLookup r cidc)) from by
        funext r; rw [hCID'], hfil]
      rfl
    refine ⟨approverPostRow cidc sc rcc (approverAttach cidc sc rcc (dropHelperCols L) r0),
      ?_, ?_, ?_, ?_⟩
    · exact List.mem_map_of_mem _ (List.mem_flatMap.2
        ⟨dropHelperCols L, List.mem_map_of_mem _ hL, by rw [hmr]; simp⟩)
    · rw [approverPostRow_CID _ _ _ _ hsl hrl, approverAttach_CID _ _ _ _ _ hsl hrl, hCID']
    · have hX : hasKey (approverAttach cidc sc rcc (dropHelperCols L) r0) "Status" = false ∨
          sc = "Status" := by
        by_cases h : sc = "Status"
        · exact Or.inr h
        · refine Or.inl ?_
          rw [hasKey_approverAttach_other _ _ _ _ _ _
            (strToLower_ne_of hcl (by decide)) (Ne.symm h) (strToLower_ne_of hrl (by decide)),
            hasKey_dropHelperCols_other L _ (by decide) (by decide) (by decide) (by decide)]
          exact hLs
      rw [approverPostRow_Status _ _ _ _ hcl hsl hrl hX,
        (approverAttach_vals cidc sc rcc (dropHelperCols L) r0 v w hsl hrl hv hw).1]
      rfl
    · have hX : hasKey (approverAttach cidc sc rcc (dropHelperCols L) r0) "Reason_Code" =
          false ∨ rcc = "Reason_Code" := by
        by_cases h : rcc = "Reason_Code"
        · exact Or.inr h
        · refine Or.inl ?_
          rw [hasKey_approverAttach_other _ _ _ _ _ _
            (strToLower_ne_of hcl (by decide)) (strToLower_ne_of hsl (by decide)) (Ne.symm h),
            hasKey_dropHelperCols_other L _ (by decide) (by decide) (by decide) (by decide)]
          exact hLrc
      rw [approverPostRow_RC _ _ _ _ hcl hsl hrl hX,
        (approverAttach_vals cidc sc rcc (dropHelperCols L) r0 v w hsl hrl hv hw).2]
      rfl
  · intro results original hne h
    rw [approverProcess_missing_eq results original hne h]
    refine ⟨by simp [approverDefaultResult], fun row hrow => ?_⟩
    exact approverDefaultResult_mem original _ row hrow
  · intro results merged r hr hnone
    have hne : results.isEmpty = false := by
      cases results with
      | nil => simp at hr
      | cons a rest => rfl
    unfold sodProcessAIResults
    rw [hne, collectChangeIds_err results r hr hnone]
    rfl

/-- Witness for C7: a mixed-case approver response is merged; a response
missing all three columns gap-fills; an SOD response with an uppercase
identifier key errors. -/
theorem C7_case_insensitive_fields_witness :
    (∃ row ∈ approverProcessAIResults
        [[("CHANGE_ID", "CHG1"), ("status", "OK"), ("Reason_Code", "Valid approver")]]
        [[("Change_ID", "CHG1")]],
      dictLookup row "Change_ID" = dictLookup [("Change_ID", "CHG1")] "Change_ID" ∧
      dictLookup row "Status" = some "OK" ∧
      dictLookup row "Reason_Code" = some "Valid approver") ∧
    ((approverProcessAIResults [[("foo", "1")]] [[("Change_ID", "CHG1")]]).length =
        [[("Change_ID", "CHG1")]].length ∧
      ∀ row ∈ approverProcessAIResults [[("foo", "1")]] [[("Change_ID", "CHG1")]],
        dictLookup row "Status" = some "Unknown" ∧
        dictLookup row "Reason_Code" = some "AI results missing required columns") ∧
    sodProcessAIResults [[("CHANGE_ID", "CHG1"), ("status", "Exception")]]
      [mkSODRow "U1" "U2" "U3" "U4"] = .error () :=
  ⟨C7_case_insensitive_fields.1 _ [[("Change_ID", "CHG1")]] [("Change_ID", "CHG1")]
      [("CHANGE_ID", "CHG1"), ("status", "OK"), ("Reason_Code", "Valid approver")]
      "CHANGE_ID" "status" "Reason_Code" "OK" "Valid approver"
      (by decide) (by decide) (by decide) (by decide) (by decide) (by decide) (by decide)
      (by decide) (by decide) (by decide) (by decide),
    C7_case_insensitive_fields.2.1 [[("foo", "1")]] [[("Change_ID", "CHG1")]]
      (by decide) (by decide),
    C7_case_insensitive_fields.2.2 [[("CHANGE_ID", "CHG1"), ("status", "Exception")]]
      [mkSODRow "U1" "U2" "U3" "U4"] [("CHANGE_ID", "CHG1"), ("status", "Exception")]
      (by decide) (by decide)⟩

/-- Counterexample for C7 as stated: the SOD workflow is not
case-insensitive — a backend response carrying `CHANGE_ID` in upper case
makes result processing raise a `KeyError` (the run is marked failed),
so the canonical fields are not populated and no `Unknown` /
`"AI results missing required columns"` rows are produced. -/
theorem C7_counterexample :
    sodProcessAIResults
      [[("CHANGE_ID", "CHG1"), ("asset_name", "A1"), ("status", "Exception"),
        ("exception_reason", "x")]]
      [mkSODRow "U1" "U2" "U3" "U4"] = .error () := rfl

/-!
## Claim C2 — canonical rendering of overlap groups
-/

/-- C2 (amended): within one rendered overlap group the canonicalizer
lists the role of the *last* slot holding the shared ID first (the dict
literal `{Requestor_ID: [...], ..., Approver_ID: [...]}` keeps only the
last value for a duplicated key), followed by the remaining member roles
in the fixed check order Requestor, Developer, Deployer, Approver.  In
particular Requestor=Developer=`u` renders exactly
`"Developer and Requestor share the same ID (u)"` (not
`"Requestor and Developer ..."`), the all-four case renders exactly
`"Requestor, Developer, Deployer & Approver share the same ID (u)"`, and
independent groups are joined with `"; "` in order of first
occurrence. -/
theorem C2_canonical_order :
    (∀ (r : VRow) (u v w : String),
      r.Status = some "Exception" →
      r.Requestor_ID = some u → r.Developer_ID = some u →
      r.Deployer_ID = some v → r.Approver_ID = some w →
      u ≠ "Unknown" → v ≠ "Unknown" → w ≠ "Unknown" →
      u ≠ v → u ≠ w → v ≠ w →
      (sodStandardizeRow r).Exception_Reason =
        some ("Developer and Requestor share the same ID (" ++ u ++ ")")) ∧
    (∀ (r : VRow) (u : String),
      r.Status = some "Exception" →
      r.Requestor_ID = some u → r.Developer_ID = some u →
      r.Deployer_ID = some u → r.Approver_ID = some u →
      u ≠ "Unknown" →
      (sodStandardizeRow r).Exception_Reason =
        some ("Requestor, Developer, Deployer & Approver share the same ID (" ++ u ++ ")")) ∧
    (∀ (r : VRow) (u v : String),
      r.Status = some "Exception" →
      r.Requestor_ID = some u → r.Developer_ID = some u →
      r.Deployer_ID = some v → r.Approver_ID = some v →
      u ≠ "Unknown" → v ≠ "Unknown" → u ≠ v →
      (sodStandardizeRow r).Exception_Reason =
        some ("Developer and Requestor share the same ID (" ++ u ++ ")" ++ "; " ++
          "Approver and Deployer share the same ID (" ++ v ++ ")")) := by
  refine ⟨?_, ?_, ?_⟩
  · intro r u v w hst hreq hdev hdep happ hu hv hw huv huw hvw
    have hparts : reasonParts r =
        ["Developer" ++ " and " ++ "Requestor" ++ " share the same ID (" ++ u ++ ")"] := by
      simp [reasonParts, violationsById, userRolesDict, rolesInsert, collectRoles,
        formatReasonPart, optValEq, hreq, hdev, hdep, happ, hu, hv, hw, huv, huw, hvw,
        Ne.symm huv, Ne.symm huw, Ne.symm hvw]
    simp only [sodStandardizeRow, hst, if_pos, hparts]
    rw [if_neg (by simp)]
    rw [show String.intercalate "; "
      ["Developer" ++ " and " ++ "Requestor" ++ " share the same ID (" ++ u ++ ")"] =
      "Developer" ++ " and " ++ "Requestor" ++ " share the same ID (" ++ u ++ ")" from rfl]
    rw [show ("Developer" ++ " and " ++ "Requestor" ++ " share the same ID (" : String) =
      "Developer and Requestor share the same ID (" from rfl]
  · intro r u hst hreq hdev hdep happ hu
    have hparts : reasonParts r =
        ["Requestor, Developer, Deployer & Approver share the same ID (" ++ u ++ ")"] := by
      simp [reasonParts, violationsById, userRolesDict, rolesInsert, collectRoles,
        formatReasonPart, optValEq, hreq, hdev, hdep, happ, hu]
    simp only [sodStandardizeRow, hst, if_pos, hparts]
    rw [if_neg (by simp)]
    rfl
  · intro r u v hst hreq hdev hdep happ hu hv huv
    have hparts : reasonParts r =
        ["Developer" ++ " and " ++ "Requestor" ++ " share the same ID (" ++ u ++ ")",
          "Approver" ++ " and " ++ "Deployer" ++ " share the same ID (" ++ v ++ ")"] := by
      simp [reasonParts, violationsById, userRolesDict, rolesInsert, collectRoles,
        formatReasonPart, optValEq, hreq, hdev, hdep, happ, hu, hv, huv, Ne.symm huv]
    simp only [sodStandardizeRow, hst, if_pos, hparts]
    rw [if_neg (by simp)]
    rw [show ∀ p q : String, String.intercalate "; " [p, q] = p ++ "; " ++ q from
      fun p q => rfl]
    rw [show ("Developer" ++ " and " ++ "Requestor" ++ " share the same ID (" : String) =
      "Developer and Requestor share the same ID (" from rfl]
    rw [show ("Approver" ++ " and " ++ "Deployer" ++ " share the same ID (" : String) =
      "Approver and Deployer share the same ID (" from rfl]
    rw [← String.append_assoc, ← String.append_assoc]

/-- Witness for C2 at `u = U1`, `v = U2`, `w = U3`. -/
theorem C2_canonical_order_witness :
    (sodStandardizeRow (sodMkVRow
        [("change_id", "CHG1"), ("asset_name", "A1"), ("status", "Exception"),
          ("exception_reason", "ai text")]
        (some (mkSODRow "U1" "U1" "U2" "U3")))).Exception_Reason =
      some ("Developer and Requestor share the same ID (" ++ "U1" ++ ")") :=
  C2_canonical_order.1 _ "U1" "U2" "U3" rfl rfl rfl rfl rfl
    (by decide) (by decide) (by decide) (by decide) (by decide) (by decide)

/-- Counterexample for C2 as stated: for Requestor=Developer=`U1`,
Deployer=`U2`, Approver=`U3` the rendered reason is
`"Developer and Requestor share the same ID (U1)"`, not the claimed
`"Requestor and Developer share the same ID (U1)"` — the fixed sequence
Requestor, Developer, Deployer, Approver is not respected for the first
member of the group. -/
theorem C2_counterexample :
    (sodStandardizeRow (sodMkVRow
        [("change_id", "CHG1"), ("asset_name", "A1"), ("status", "Exception"),
          ("exception_reason", "ai text")]
        (some (mkSODRow "U1" "U1" "U2" "U3")))).Exception_Reason =
      some "Developer and Requestor share the same ID (U1)" ∧
    ("Developer and Requestor share the same ID (U1)" : String) ≠
      "Requestor and Developer share the same ID (U1)" :=
  ⟨by decide, by decide⟩

/-!
## Claim C9 — authority over the reason text of Exception rows
-/

/-- C9 (amended): for an `Exception` outcome whose four role-holder IDs
exhibit at least one non-`Unknown` overlap, the reason is recomputed
deterministically from the IDs — the backend's own reason text is
discarded (the result does not depend on it).  But when the IDs exhibit
no overlap group (for example all four are distinct), the backend's
free-text reason is kept unchanged, so it does appear in the final
report. -/
theorem C9_reason_authority :
    (∀ (r : VRow) (s : Option String),
      r.Status = some "Exception" →
      reasonParts r ≠ [] →
      (sodStandardizeRow { r with Exception_Reason := s }).Exception_Reason =
        some (String.intercalate "; " (reasonParts r))) ∧
    (∀ r : VRow,
      r.Status = some "Exception" →
      reasonParts r = [] →
      (sodStandardizeRow r).Exception_Reason = r.Exception_Reason) := by
  constructor
  · intro r s hst hne
    have hst' : ({ r with Exception_Reason := s } : VRow).Status = some "Exception" := hst
    have hne' : ¬ ((reasonParts { r with Exception_Reason := s }).isEmpty = true) := by
      have heq : reasonParts { r with Exception_Reason := s } = reasonParts r := rfl
      rw [heq]
      simpa using hne
    unfold sodStandardizeRow
    rw [if_pos hst', if_neg hne']
    rfl
  · intro r hst hempty
    unfold sodStandardizeRow
    rw [if_pos hst, if_pos (by simp [hempty])]

/-- Witness for C9: the overlapping record's reason is recomputed
whatever the backend said; swapping the backend text changes nothing. -/
theorem C9_reason_authority_witness :
    (sodStandardizeRow { sodMkVRow
        [("change_id", "CHG1"), ("asset_name", "A1"), ("status", "Exception"),
          ("exception_reason", "whatever the backend said")]
        (some (mkSODRow "U1" "U1" "U2" "U3")) with
      Exception_Reason := some "whatever the backend said" }).Exception_Reason =
      some (String.intercalate "; " (reasonParts (sodMkVRow
        [("change_id", "CHG1"), ("asset_name", "A1"), ("status", "Exception"),
          ("exception_reason", "whatever the backend said")]
        (some (mkSODRow "U1" "U1" "U2" "U3"))))) :=
  C9_reason_authority.1 _ (some "whatever the backend said") rfl (by decide)

/-- Counterexample for C9 as stated: an `Exception` outcome whose four
role-holder IDs are pairwise distinct keeps the backend's free-text
reason verbatim — it does appear as the `Exception_Reason` of an
`Exception` row of the final merged output. -/
theorem C9_counterexample :
    (sodProcessAIResults
        [[("change_id", "CHG1"), ("asset_name", "A1"), ("status", "Exception"),
          ("exception_reason", "Backend free text")]]
        [mkSODRow "U1" "U9" "U2" "U3"]).map
      (fun out => out.map (fun vr => (vr.Status, vr.Exception_Reason))) =
      .ok [(some "Exception", some "Backend free text")] := rfl

/-!
## Claim C6 — best-effort reference lookups in the context builder
-/

/-- C6 (amended): the IAM role lookup is best-effort — a user ID absent
from the IAM table resolves to `"Unknown"`, never an error, and IAM
misses never drop the row from the joined set.  The deployment-log
lookup is not: a change with no matching deployment-log row is skipped
(`continue`), so that row is dropped from the joined row set (without
raising). -/
theorem C6_lookup_behaviour :
    (∀ (iam : List IamUser) (userId : String),
      (∀ u ∈ iam, u.User_ID ≠ userId) → getIamRole iam userId = "Unknown") ∧
    (∀ (changes : List ChangeRow) (deploys : List DeployRow) (iam : List IamUser)
        (c : ChangeRow) (changeId assetName : String),
      c ∈ changes →
      c.Change_ID = some changeId → c.Asset_Name = some assetName →
      (∃ d ∈ deploys, d.Linked_Change_ID = changeId ∧ d.Asset_Name = assetName) →
      ∃ out ∈ prepareMergedData changes deploys iam,
        out.Change_ID = changeId ∧ out.Asset_Name = assetName) ∧
    (∀ (deploys : List DeployRow) (iam : List IamUser) (c : ChangeRow)
        (changeId assetName : String),
      c.Change_ID = some changeId → c.Asset_Name = some assetName →
      (∀ d ∈ deploys, ¬ (d.Linked_Change_ID = changeId ∧ d.Asset_Name = assetName)) →
      prepareMergedData [c] deploys iam = []) := by
  refine ⟨?_, ?_, ?_⟩
  · intro iam userId h
    unfold getIamRole
    have : iam.filter (fun u => u.User_ID = userId) = [] := by
      rw [List.filter_eq_nil_iff]
      intro u hu
      simp [h u hu]
    rw [this]
  · intro changes deploys iam c changeId assetName hc hcid han hdep
    obtain ⟨d, hd, hdc, hda⟩ := hdep
    have hfil : (deploys.filter
        (fun d' => d'.Linked_Change_ID = changeId ∧ d'.Asset_Name = assetName)) ≠ [] := by
      intro hnil
      have := List.filter_eq_nil_iff.1 hnil d hd
      simp [hdc, hda] at this
    cases hfe : deploys.filter
        (fun d : DeployRow => d.Linked_Change_ID = changeId ∧ d.Asset_Name = assetName) with
    | nil => exact absurd hfe hfil
    | cons d0 rest =>
      unfold prepareMergedData
      refine ⟨buildSODRow iam c changeId assetName d0,
        List.mem_filterMap.2 ⟨c, hc, ?_⟩, rfl, rfl⟩
      rw [hcid, han]
      show (match deploys.filter
          (fun d : DeployRow => d.Linked_Change_ID = changeId ∧ d.Asset_Name = assetName) with
        | [] => none
        | d0 :: _ => some (buildSODRow iam c changeId assetName d0)) =
        some (buildSODRow iam c changeId assetName d0)
      rw [hfe]
  · intro deploys iam c changeId assetName hcid han hnone
    have hfe : deploys.filter
        (fun d : DeployRow => d.Linked_Change_ID = changeId ∧ d.Asset_Name = assetName) = [] := by
      rw [List.filter_eq_nil_iff]
      intro d hd
      simpa using hnone d hd
    unfold prepareMergedData
    rw [List.filterMap_eq_nil_iff]
    intro a ha
    rw [List.mem_singleton] at ha
    subst ha
    rw [hcid, han]
    show (match deploys.filter
        (fun d : DeployRow => d.Linked_Change_ID = changeId ∧ d.Asset_Name = assetName) with
      | [] => none
      | d0 :: _ => some (buildSODRow iam a changeId assetName d0)) = none
    rw [hfe]

/-- Witness for C6: a missing IAM user resolves to `Unknown`; a change
with a matching deployment row is kept; the same change with an empty
deployment log is dropped. -/
theorem C6_lookup_behaviour_witness :
    getIamRole [⟨"U7", "Approver", "IT Manager"⟩] "U1" = "Unknown" ∧
    (∃ out ∈ prepareMergedData
        [⟨some "C1", some "A", some "U1", none, none, none, none, none, none, none⟩]
        [⟨"C1", "A", "U9", "Dave", "DEP7"⟩] [],
      out.Change_ID = "C1" ∧ out.Asset_Name = "A") ∧
    prepareMergedData
      [⟨some "C1", some "A", some "U1", none, none, none, none, none, none, none⟩]
      [] [] = [] :=
  ⟨C6_lookup_behaviour.1 [⟨"U7", "Approver", "IT Manager"⟩] "U1" (by decide),
    C6_lookup_behaviour.2.1 _ [⟨"C1", "A", "U9", "Dave", "DEP7"⟩] []
      ⟨some "C1", some "A", some "U1", none, none, none, none, none, none, none⟩
      "C1" "A" (by decide) rfl rfl ⟨⟨"C1", "A", "U9", "Dave", "DEP7"⟩, by decide, rfl, rfl⟩,
    C6_lookup_behaviour.2.2 [] []
      ⟨some "C1", some "A", some "U1", none, none, none, none, none, none, none⟩
      "C1" "A" rfl rfl (by decide)⟩

/-- Counterexample for C6 as stated: the deployment-log lookup is not
best-effort — with no matching deployment row the change is dropped from
the joined row set instead of resolving its deployer attributes to
`Unknown`. -/
theorem C6_counterexample :
    prepareMergedData
      [⟨some "C1", some "A", some "U1", some "Alice", some "U2", some "Bob",
        some "U3", some "Carol", some "Normal", some "Low"⟩]
      [] [] = [] ∧
    ([] : List SODRow).length ≠ 1 :=
  ⟨rfl, by decide⟩

/-!
## Claim C5 — parser totality and the unparseable-text fallback
-/

/-- C5 (amended): both response parsers are total — every exception path
inside them is caught, so the caller always receives a value.  For text
in which no fenced JSON, no JSON array pattern, no JSON object pattern
and no whole-text JSON parse succeeds, the approver parser returns the
empty list; the SOD parser, however, returns a one-element list holding
a synthesized record whose `exception_reason` carries the raw text (and
whose other fields are regex-scraped or `"Unknown"`), not the empty
list. -/
theorem C5_unparseable_text :
    (∀ text : String,
      approverSearchFenced (removeCodeFences text.data) = none →
      searchArrayPattern (removeCodeFences text.data) = none →
      searchObjectPattern (removeCodeFences text.data) = none →
      jsonLoadsList (removeCodeFences text.data) = none →
      approverExtractJsonFromText text = Json.arr []) ∧
    (∀ text : String,
      sodSearchFenced text.data = none →
      searchArrayPattern text.data = none →
      searchObjectPattern text.data = none →
      jsonLoadsList text.data = none →
      ∃ changeId assetName status : String,
        sodExtractJsonFromText text = Json.arr [Json.obj
          [("change_id", Json.str changeId), ("asset_name", Json.str assetName),
            ("status", Json.str status), ("exception_reason", Json.str text)]]) := by
  constructor
  · intro text h1 h2 h3 h4
    unfold approverExtractJsonFromText
    simp only [h1, h2, h3, h4]
  · intro text h1 h2 h3 h4
    refine ⟨((searchCapture "Change_ID: ".data (fun c => c.isAlphanum) none text.data).map
        String.mk).getD "Unknown",
      ((searchCapture "Asset_Name: ".data (fun c => c.isAlphanum ∨ c = ' ') none
        text.data).map String.mk).getD "Unknown",
      ((searchCapture "Status: \"".data (fun c => c.isAlpha) (some '"') text.data).map
        String.mk).getD "Unknown", ?_⟩
    unfold sodExtractJsonFromText
    simp only [h1, h2, h3, h4]

/-- Witness for C5 at the unparseable text `"hello"`. -/
theorem C5_unparseable_text_witness :
    approverExtractJsonFromText "hello" = Json.arr [] ∧
    (∃ changeId assetName status : String,
      sodExtractJsonFromText "hello" = Json.arr [Json.obj
        [("change_id", Json.str changeId), ("asset_name", Json.str assetName),
          ("status", Json.str status), ("exception_reason", Json.str "hello")]]) :=
  ⟨C5_unparseable_text.1 "hello" rfl rfl rfl rfl,
    C5_unparseable_text.2 "hello" rfl rfl rfl rfl⟩

/-- Counterexample for C5 as stated: on fully unparseable text the SOD
parser does not return the empty list — it synthesizes a single record
wrapping the raw text. -/
theorem C5_counterexample :
    sodExtractJsonFromText "hello world" = Json.arr [Json.obj
      [("change_id", Json.str "Unknown"), ("asset_name", Json.str "Unknown"),
        ("status", Json.str "Unknown"), ("exception_reason", Json.str "hello world")]] ∧
    sodExtractJsonFromText "hello world" ≠ Json.arr [] := by
  constructor
  · rfl
  · intro h
    rw [show sodExtractJsonFromText "hello world" = Json.arr [Json.obj
      [("change_id", Json.str "Unknown"), ("asset_name", Json.str "Unknown"),
        ("status", Json.str "Unknown"), ("exception_reason", Json.str "hello world")]]
      from rfl] at h
    simp at h

/-!
## Claim C10 — canonical columns present, helper columns removed
-/

theorem approverMergeRow_cases (results : List Dict) (cidc sc rcc : String) (L x : Dict)
    (hx : x ∈ approverMergeRow results cidc sc rcc L) :
    x = L ∨ ∃ r0 : Dict, x = approverAttach cidc sc rcc L r0 := by
  unfold approverMergeRow at hx
  by_cases h : (results.filter
      (fun r => optValEq (dictLookup L "Change_ID") (dictLookup r cidc))).isEmpty
  · rw [if_pos h] at hx
    rw [List.mem_singleton] at hx
    exact Or.inl hx
  · rw [if_neg h] at hx
    obtain ⟨r0, _, hr0⟩ := List.mem_map.1 hx
    exact Or.inr ⟨r0, hr0.symm⟩

/-- Key inventory of the post-merge column steps. -/
theorem approverPostRow_keys (cidc sc rcc : String) (X : Dict) :
    hasKey (approverPostRow cidc sc rcc X) "Status" = true ∧
    hasKey (approverPostRow cidc sc rcc X) "Reason_Code" = true ∧
    ∀ k, k ≠ "Status" → k ≠ "Reason_Code" → k ≠ cidc → k ≠ sc → k ≠ rcc →
      hasKey X k = false → hasKey (approverPostRow cidc sc rcc X) k = false := by
  refine ⟨?_, ?_, ?_⟩
  · simp only [approverPostRow]
    rw [hasKey_fillKey_other _ _ _ _ (by decide), hasKey_fillKey_self]
  · simp only [approverPostRow]
    rw [hasKey_fillKey_self]
  · intro k hkS hkR hkc hks hkr hX
    have s1 : hasKey (if cidc = "Change_ID" then X else dropKey X cidc) k = false := by
      by_cases h : cidc = "Change_ID"
      · rw [if_pos h]; exact hX
      · rw [if_neg h, hasKey_dropKey_other _ _ _ hkc]; exact hX
    have s2 : hasKey (if sc = "Status" then (if cidc = "Change_ID" then X else dropKey X cidc)
        else renameKey (if cidc = "Change_ID" then X else dropKey X cidc) sc "Status") k =
        false := by
      by_cases h : sc = "Status"
      · rw [if_pos h]; exact s1
      · rw [if_neg h, hasKey_renameKey_other _ _ _ _ hks hkS]; exact s1
    have s3 : hasKey (if rcc = "Reason_Code" then
        (if sc = "Status" then (if cidc = "Change_ID" then X else dropKey X cidc)
          else renameKey (if cidc = "Change_ID" then X else dropKey X cidc) sc "Status")
        else renameKey
          (if sc = "Status" then (if cidc = "Change_ID" then X else dropKey X cidc)
            else renameKey (if cidc = "Change_ID" then X else dropKey X cidc) sc "Status")
          rcc "Reason_Code") k = false := by
      by_cases h : rcc = "Reason_Code"
      · rw [if_pos h]; exact s2
      · rw [if_neg h, hasKey_renameKey_other _ _ _ _ hkr hkR]; exact s2
    simp only [approverPostRow]
    rw [hasKey_fillKey_other _ _ _ _ hkR, hasKey_fillKey_other _ _ _ _ hkS]
    exact s3

theorem approverDefaultResult_keys (original : List Dict) (reason : String) (row : Dict)
    (hrow : row ∈ approverDefaultResult original reason) :
    hasKey row "Status" = true ∧ hasKey row "Reason_Code" = true ∧
    hasKey row "IAM_User_IDs" = false ∧ hasKey row "IAM_Approver_IDs" = false ∧
    hasKey row "IT_BU_Manager_IDs" = false := by
  obtain ⟨x, _, hx⟩ := List.mem_map.1 hrow
  subst hx
  obtain ⟨hh1, hh2, hh3⟩ := hasKey_dropHelperCols_helper x
  refine ⟨?_, ?_, ?_, ?_, ?_⟩
  · rw [hasKey_setKey_other _ _ _ _ (by decide), hasKey_setKey_self]
  · rw [hasKey_setKey_self]
  · rw [hasKey_setKey_other _ _ _ _ (by decide), hasKey_setKey_other _ _ _ _ (by decide)]
    exact hh1
  · rw [hasKey_setKey_other _ _ _ _ (by decide), hasKey_setKey_other _ _ _ _ (by decide)]
    exact hh2
  · rw [hasKey_setKey_other _ _ _ _ (by decide), hasKey_setKey_other _ _ _ _ (by decide)]
    exact hh3

/-- C10: on every termination path of approver result processing —
successful merge, empty results, missing required columns, and the
internal-exception path — the stored rows carry the canonical `Status`
and `Reason_Code` columns and never the helper reference columns
`IAM_User_IDs` / `IAM_Approver_IDs` / `IT_BU_Manager_IDs` that
`_prepare_data_for_validation` attaches (it does attach all three). -/
theorem C10_helper_columns :
    (∀ (pop : List Dict) (iam : List IamUser) (r : Dict),
      r ∈ prepareDataForValidation pop iam →
      hasKey r "IAM_User_IDs" = true ∧ hasKey r "IAM_Approver_IDs" = true ∧
        hasKey r "IT_BU_Manager_IDs" = true) ∧
    (∀ (results original : List Dict) (row : Dict),
      row ∈ approverProcessAIResults results original →
      hasKey row "Status" = true ∧ hasKey row "Reason_Code" = true ∧
      hasKey row "IAM_User_IDs" = false ∧ hasKey row "IAM_Approver_IDs" = false ∧
      hasKey row "IT_BU_Manager_IDs" = false) ∧
    (∀ (original : List Dict) (e : String) (row : Dict),
      row ∈ approverProcessErrorPath original e →
      hasKey row "Status" = true ∧ hasKey row "Reason_Code" = true ∧
      hasKey row "IAM_User_IDs" = false ∧ hasKey row "IAM_Approver_IDs" = false ∧
      hasKey row "IT_BU_Manager_IDs" = false) := by
  refine ⟨?_, ?_, ?_⟩
  · intro pop iam r hr
    obtain ⟨x, _, hx⟩ := List.mem_map.1 hr
    subst hx
    refine ⟨?_, ?_, ?_⟩
    · rw [hasKey_setKey_other _ _ _ _ (by decide), hasKey_setKey_other _ _ _ _ (by decide),
        hasKey_setKey_self]
    · rw [hasKey_setKey_other _ _ _ _ (by decide), hasKey_setKey_self]
    · rw [hasKey_setKey_self]
  · intro results original row hrow
    unfold approverProcessAIResults at hrow
    by_cases hres : results.isEmpty
    · rw [if_pos hres] at hrow
      exact approverDefaultResult_keys original _ row hrow
    · rw [if_neg hres] at hrow
      dsimp only at hrow
      cases hf1 : (dfColumns results).find? (fun c => strToLower c = "change_id") with
      | none =>
        rw [hf1] at hrow
        cases (dfColumns results).find? (fun c => strToLower c = "status") <;>
          cases (dfColumns results).find? (fun c => strToLower c = "reason_code") <;>
          exact approverDefaultResult_keys original _ row hrow
      | some cidc =>
        rw [hf1] at hrow
        cases hf2 : (dfColumns results).find? (fun c => strToLower c = "status") with
        | none =>
          rw [hf2] at hrow
          cases (dfColumns results).find? (fun c => strToLower c = "reason_code") <;>
            exact approverDefaultResult_keys original _ row hrow
        | some sc =>
          rw [hf2] at hrow
          cases hf3 : (dfColumns results).find? (fun c => strToLower c = "reason_code") with
          | none =>
            rw [hf3] at hrow
            exact approverDefaultResult_keys original _ row hrow
          | some rcc =>
            rw [hf3] at hrow
            have hcl : strToLower cidc = "change_id" := by simpa using List.find?_some hf1
            have hsl : strToLower sc = "status" := by simpa using List.find?_some hf2
            have hrl : strToLower rcc = "reason_code" := by simpa using List.find?_some hf3
            obtain ⟨x, hxmem, hx⟩ := List.mem_map.1 hrow
            subst hx
            obtain ⟨L', hL'mem, hL'⟩ := List.mem_flatMap.1 hxmem
            obtain ⟨L, _, hLL'⟩ := List.mem_map.1 hL'mem
            obtain ⟨hS, hR, hother⟩ := approverPostRow_keys cidc sc rcc x
            refine ⟨hS, hR, ?_, ?_, ?_⟩ <;>
              refine hother _ (by decide) (by decide)
                (ne_of_strToLower hcl (by decide)).symm
                (ne_of_strToLower hsl (by decide)).symm
                (ne_of_strToLower hrl (by decide)).symm ?_ <;>
              rcases approverMergeRow_cases results cidc sc rcc L' x hL' with hcase | ⟨r0, hcase⟩ <;>
              subst hcase <;>
              first
              | (subst hLL'
                 exact (hasKey_dropHelperCols_helper L).1)
              | (subst hLL'
                 exact (hasKey_dropHelperCols_helper L).2.1)
              | (subst hLL'
                 exact (hasKey_dropHelperCols_helper L).2.2)
              | (rw [hasKey_approverAttach_other _ _ _ _ _ _
                    (ne_of_strToLower hcl (by decide)).symm
                    (ne_of_strToLower hsl (by decide)).symm
                    (ne_of_strToLower hrl (by decide)).symm]
                 subst hLL'
                 first
                 | exact (hasKey_dropHelperCols_helper L).1
                 | exact (hasKey_dropHelperCols_helper L).2.1
                 | exact (hasKey_dropHelperCols_helper L).2.2)
  · intro original e row hrow
    obtain ⟨x, _, hx⟩ := List.mem_map.1 hrow
    subst hx
    obtain ⟨hh1, hh2, hh3⟩ := hasKey_dropHelperCols_helper x
    refine ⟨?_, ?_, ?_, ?_, ?_⟩
    · rw [hasKey_setKey_other _ _ _ _ (by decide), hasKey_setKey_self]
    · rw [hasKey_setKey_self]
    · rw [hasKey_setKey_other _ _ _ _ (by decide), hasKey_setKey_other _ _ _ _ (by decide)]
      exact hh1
    · rw [hasKey_setKey_other _ _ _ _ (by decide), hasKey_setKey_other _ _ _ _ (by decide)]
      exact hh2
    · rw [hasKey_setKey_other _ _ _ _ (by decide), hasKey_setKey_other _ _ _ _ (by decide)]
      exact hh3

/-- Witness for C10 at one concrete run of each path. -/
theorem C10_helper_columns_witness :
    (hasKey ((prepareDataForValidation [[("Change_ID", "CHG1")]]
        [⟨"U7", "Approver", "IT Manager"⟩]).headD []) "IAM_User_IDs" = true ∧
      hasKey ((prepareDataForValidation [[("Change_ID", "CHG1")]]
        [⟨"U7", "Approver", "IT Manager"⟩]).headD []) "IAM_Approver_IDs" = true ∧
      hasKey ((prepareDataForValidation [[("Change_ID", "CHG1")]]
        [⟨"U7", "Approver", "IT Manager"⟩]).headD []) "IT_BU_Manager_IDs" = true) ∧
    (hasKey ((approverProcessAIResults
        [[("Change_ID", "CHG1"), ("Status", "OK"), ("Reason_Code", "Valid approver")]]
        [[("Change_ID", "CHG1"), ("IAM_User_IDs", "U7"), ("IAM_Approver_IDs", "U7"),
          ("IT_BU_Manager_IDs", "U7")]]).headD []) "Status" = true ∧
      hasKey ((approverProcessAIResults
        [[("Change_ID", "CHG1"), ("Status", "OK"), ("Reason_Code", "Valid approver")]]
        [[("Change_ID", "CHG1"), ("IAM_User_IDs", "U7"), ("IAM_Approver_IDs", "U7"),
          ("IT_BU_Manager_IDs", "U7")]]).headD []) "Reason_Code" = true ∧
      hasKey ((approverProcessAIResults
        [[("Change_ID", "CHG1"), ("Status", "OK"), ("Reason_Code", "Valid approver")]]
        [[("Change_ID", "CHG1"), ("IAM_User_IDs", "U7"), ("IAM_Approver_IDs", "U7"),
          ("IT_BU_Manager_IDs", "U7")]]).headD []) "IAM_User_IDs" = false ∧
      hasKey ((approverProcessAIResults
        [[("Change_ID", "CHG1"), ("Status", "OK"), ("Reason_Code", "Valid approver")]]
        [[("Change_ID", "CHG1"), ("IAM_User_IDs", "U7"), ("IAM_Approver_IDs", "U7"),
          ("IT_BU_Manager_IDs", "U7")]]).headD []) "IAM_Approver_IDs" = false ∧
      hasKey ((approverProcessAIResults
        [[("Change_ID", "CHG1"), ("Status", "OK"), ("Reason_Code", "Valid approver")]]
        [[("Change_ID", "CHG1"), ("IAM_User_IDs", "U7"), ("IAM_Approver_IDs", "U7"),
          ("IT_BU_Manager_IDs", "U7")]]).headD []) "IT_BU_Manager_IDs" = false) ∧
    (hasKey ((approverProcessErrorPath [[("Change_ID", "CHG1"), ("IAM_User_IDs", "U7")]]
        "boom").headD []) "Status" = true ∧
      hasKey ((approverProcessErrorPath [[("Change_ID", "CHG1"), ("IAM_User_IDs", "U7")]]
        "boom").headD []) "Reason_Code" = true ∧
      hasKey ((approverProcessErrorPath [[("Change_ID", "CHG1"), ("IAM_User_IDs", "U7")]]
        "boom").headD []) "IAM_User_IDs" = false ∧
      hasKey ((approverProcessErrorPath [[("Change_ID", "CHG1"), ("IAM_User_IDs", "U7")]]
        "boom").headD []) "IAM_Approver_IDs" = false ∧
      hasKey ((approverProcessErrorPath [[("Change_ID", "CHG1"), ("IAM_User_IDs", "U7")]]
        "boom").headD []) "IT_BU_Manager_IDs" = false) :=
  ⟨C10_helper_columns.1 [[("Change_ID", "CHG1")]] [⟨"U7", "Approver", "IT Manager"⟩] _
      (by decide),
    C10_helper_columns.2.1
      [[("Change_ID", "CHG1"), ("Status", "OK"), ("Reason_Code", "Valid approver")]]
      [[("Change_ID", "CHG1"), ("IAM_User_IDs", "U7"), ("IAM_Approver_IDs", "U7"),
        ("IT_BU_Manager_IDs", "U7")]] _ (by decide),
    C10_helper_columns.2.2 [[("Change_ID", "CHG1"), ("IAM_User_IDs", "U7")]] "boom" _
      (by decide)⟩

/-!
## Claim C1 — cardinality and identifier preservation
-/

theorem approverDefaultResult_ids (original : List Dict) (reason : String) :
    (approverDefaultResult original reason).map (fun r => dictLookup r "Change_ID") =
      original.map (fun r => dictLookup r "Change_ID") := by
  unfold approverDefaultResult
  rw [List.map_map]
  apply List.map_congr_left
  intro L _
  show dictLookup (setKey (setKey (dropHelperCols L) "Status" "Unknown")
    "Reason_Code" reason) "Change_ID" = dictLookup L "Change_ID"
  rw [dictLookup_setKey, if_neg (by decide), dictLookup_setKey, if_neg (by decide),
    dictLookup_dropHelperCols L _ (by decide) (by decide) (by decide) (by decide)]

/-- The identifier column of the approver output equals the input's,
row for row, whenever no input identifier is matched by two or more
outcome records. -/
theorem approverProcess_ids (results original : List Dict)
    (hcount : match (dfColumns results).find? (fun c => strToLower c = "change_id") with
      | some cidc => ∀ L ∈ original, (results.filter (fun r =>
          optValEq (dictLookup L "Change_ID") (dictLookup r cidc))).length ≤ 1
      | none => True) :
    (approverProcessAIResults results original).map (fun r => dictLookup r "Change_ID") =
      original.map (fun r => dictLookup r "Change_ID") := by
  unfold approverProcessAIResults
  by_cases hres : results.isEmpty
  · rw [if_pos hres]
    exact approverDefaultResult_ids original _
  · rw [if_neg hres]
    dsimp only
    cases hf1 : (dfColumns results).find? (fun c => strToLower c = "change_id") with
    | none =>
      cases (dfColumns results).find? (fun c => strToLower c = "status") <;>
        cases (dfColumns results).find? (fun c => strToLower c = "reason_code") <;>
        exact approverDefaultResult_ids original _
    | some cidc =>
      rw [hf1] at hcount
      cases hf2 : (dfColumns results).find? (fun c => strToLower c = "status") with
      | none =>
        cases (dfColumns results).find? (fun c => strToLower c = "reason_code") <;>
          exact approverDefaultResult_ids original _
      | some sc =>
        cases hf3 : (dfColumns results).find? (fun c => strToLower c = "reason_code") with
        | none => exact approverDefaultResult_ids original _
        | some rcc =>
          have hsl : strToLower sc = "status" := by simpa using List.find?_some hf2
          have hrl : strToLower rcc = "reason_code" := by simpa using List.find?_some hf3
          rw [List.map_map, Function.comp_def]
          have key := flatMap_map_single (original.map dropHelperCols)
            (approverMergeRow results cidc sc rcc)
            (fun x => dictLookup (approverPostRow cidc sc rcc x) "Change_ID")
            (fun L' => dictLookup L' "Change_ID") ?_
          · rw [key, List.map_map]
            apply List.map_congr_left
            intro L _
            exact dictLookup_dropHelperCols L _ (by decide) (by decide) (by decide) (by decide)
          · intro L' hL'
            obtain ⟨L, hLmem, hLL'⟩ := List.mem_map.1 hL'
            have hCID' : dictLookup L' "Change_ID" = dictLookup L "Change_ID" := by
              rw [← hLL']
              exact dictLookup_dropHelperCols L _ (by decide) (by decide) (by decide)
                (by decide)
            have hfe : results.filter (fun r =>
                optValEq (dictLookup L' "Change_ID") (dictLookup r cidc)) =
                results.filter (fun r =>
                optValEq (dictLookup L "Change_ID") (dictLookup r cidc)) := by
              rw [show (fun r => optValEq (dictLookup L' "Change_ID") (dictLookup r cidc)) =
                (fun r => optValEq (dictLookup L "Change_ID") (dictLookup r cidc)) from by
                funext r; rw [hCID']]
            have hlen := hcount L hLmem
            unfold approverMergeRow
            rw [hfe]
            cases hms : results.filter (fun r =>
                optValEq (dictLookup L "Change_ID") (dictLookup r cidc)) with
            | nil =>
              simp only [List.isEmpty_nil, if_pos, List.map_cons, List.map_nil]
              rw [approverPostRow_CID _ _ _ _ hsl hrl]
            | cons r0 rest =>
              have hrest : rest = [] := by
                rw [hms] at hlen
                cases rest with
                | nil => rfl
                | cons a b => simp at hlen
              subst hrest
              simp only [List.isEmpty_cons, Bool.false_eq_true, if_false, List.map_cons,
                List.map_nil]
              rw [approverPostRow_CID _ _ _ _ hsl hrl,
                approverAttach_CID _ _ _ _ _ hsl hrl]

theorem length_filter_mem_of_nodup (A C : List String) (hA : A.Nodup) (hC : C.Nodup)
    (hsub : ∀ c ∈ C, c ∈ A) :
    (A.filter (fun i => C.contains i)).length = C.length := by
  have hfn : (A.filter (fun i => C.contains i)).Nodup := hA.filter _
  have h1 : List.Subperm C (A.filter (fun i => C.contains i)) := by
    apply hC.subperm
    intro c hc
    exact List.mem_filter.2 ⟨hsub c hc, List.elem_iff.2 hc⟩
  have h2 : List.Subperm (A.filter (fun i => C.contains i)) C := by
    apply hfn.subperm
    intro x hx
    exact List.elem_iff.1 (List.mem_filter.1 hx).2
  exact le_antisymm h2.length_le h1.length_le

/-- The identifier multiset of the SOD output: the collected outcome
identifiers followed by the synthesized missing identifiers. -/
theorem sodProcess_ids (results : List Dict) (merged : List SODRow)
    (hne : results ≠ [])
    (hmatch : ∀ r ∈ results, ∃ m ∈ merged, dictLookup r "change_id" = some m.Change_ID ∧
      dictLookup r "asset_name" = some m.Asset_Name ∧ (dictLookup r "status").isSome)
    (hndA : (merged.map (·.Change_ID)).Nodup) :
    ∃ out, sodProcessAIResults results merged = .ok out ∧
      out.map (·.Change_ID) =
        (sodCids results).map some ++ (sodMissingIds results merged).map some := by
  have hkeys : ∀ r ∈ results, (dictLookup r "change_id").isSome ∧
      (dictLookup r "asset_name").isSome ∧ (dictLookup r "status").isSome := by
    intro r hr
    obtain ⟨m, _, h1, h2, h3⟩ := hmatch r hr
    exact ⟨by simp [h1], by simp [h2], h3⟩
  refine ⟨_, sodProcess_eq results merged hne hkeys, ?_⟩
  rw [List.map_map]
  rw [flatMap_map_single (results ++ sodSynthRecords results merged) (sodMergeRow merged)
    (fun v => ((·.Change_ID) ∘ sodStandardizeRow) v)
    (fun r => dictLookup r "change_id") ?_]
  · rw [List.map_append]
    congr 1
    · unfold sodCids
      rw [List.map_map]
      apply List.map_congr_left
      intro r hr
      obtain ⟨v, hv⟩ := Option.isSome_iff_exists.1 (hkeys r hr).1
      simp [Function.comp, hv]
    · exact sodSynthRecords_cids results merged
  · intro r hr
    rcases List.mem_append.1 hr with hr | hr
    · obtain ⟨m, hm, h1, h2, _⟩ := hmatch r hr
      rw [sodMergeRow_eq_singleton merged r m hm h1 h2 hndA]
      simp only [List.map_cons, List.map_nil, Function.comp]
      rw [(sodStandardizeRow_preserves _).1]
      show [(some m).map (·.Change_ID)] = [dictLookup r "change_id"]
      rw [h1]
      rfl
    · obtain ⟨m, hm, hrm⟩ := sodSynthRecords_keys results merged r hr
      subst hrm
      rw [sodMergeRow_eq_singleton merged (sodSynthRecord m) m hm
        (sodSynthRecord_lookups m).1 (sodSynthRecord_lookups m).2.1 hndA]
      simp only [List.map_cons, List.map_nil, Function.comp]
      rw [(sodStandardizeRow_preserves _).1]
      show [(some m).map (·.Change_ID)] = [dictLookup (sodSynthRecord m) "change_id"]
      rw [(sodSynthRecord_lookups m).1]
      rfl

/-- C1 (amended): identifier preservation holds with provisos.  In the
approver workflow the output's `Change_ID` column equals the input's row
for row — hence exactly N rows with the same identifier set — provided
no input identifier is matched by two or more outcome records (a
duplicated outcome identifier duplicates its row).  In the SOD workflow
the output has exactly N rows with identifier set equal to the input's
provided the outcomes are nonempty, every outcome carries the lowercase
`change_id`/`asset_name`/`status` keys and matches an input record, and
neither input nor outcome identifiers repeat; an all-empty run instead
produces zero rows (claim C3's counterexample), and foreign or
duplicated outcome identifiers add rows. -/
theorem C1_cardinality :
    (∀ results original : List Dict,
      (match (dfColumns results).find? (fun c => strToLower c = "change_id") with
        | some cidc => ∀ L ∈ original, (results.filter (fun r =>
            optValEq (dictLookup L "Change_ID") (dictLookup r cidc))).length ≤ 1
        | none => True) →
      (approverProcessAIResults results original).map (fun r => dictLookup r "Change_ID") =
        original.map (fun r => dictLookup r "Change_ID")) ∧
    (∀ (results : List Dict) (merged : List SODRow),
      results ≠ [] →
      (∀ r ∈ results, ∃ m ∈ merged, dictLookup r "change_id" = some m.Change_ID ∧
        dictLookup r "asset_name" = some m.Asset_Name ∧ (dictLookup r "status").isSome) →
      (merged.map (·.Change_ID)).Nodup →
      (results.map (fun r => dictLookup r "change_id")).Nodup →
      ∃ out, sodProcessAIResults results merged = .ok out ∧
        out.length = merged.length ∧
        ∀ id : String, some id ∈ out.map (·.Change_ID) ↔ id ∈ merged.map (·.Change_ID)) := by
  constructor
  · exact approverProcess_ids
  · intro results merged hne hmatch hndA hndC
    obtain ⟨out, hout, hids⟩ := sodProcess_ids results merged hne hmatch hndA
    have hCsome : results.map (fun r => dictLookup r "change_id") =
        (sodCids results).map some := by
      unfold sodCids
      rw [List.map_map]
      apply List.map_congr_left
      intro r hr
      obtain ⟨m, _, h1, _, _⟩ := hmatch r hr
      simp [Function.comp, h1]
    have hCnd : (sodCids results).Nodup := by
      rw [hCsome] at hndC
      exact hndC.of_map some
    have hCsub : ∀ c ∈ sodCids results, c ∈ merged.map (·.Change_ID) := by
      intro c hc
      obtain ⟨r, hr, hrc⟩ := List.mem_map.1 hc
      obtain ⟨m, hm, h1, _, _⟩ := hmatch r hr
      have : c = m.Change_ID := by
        rw [← hrc]
        simp [h1]
      rw [this]
      exact List.mem_map_of_mem _ hm
    have hmissNodup : ((merged.map (·.Change_ID)).filter
        (fun i => ! (sodCids results).contains i)).Nodup := hndA.filter _
    have hdedup : sodMissingIds results merged =
        (merged.map (·.Change_ID)).filter (fun i => ! (sodCids results).contains i) := by
      unfold sodMissingIds
      exact List.dedup_eq_self.2 hmissNodup
    refine ⟨out, hout, ?_, ?_⟩
    · have hlen : out.length = (sodCids results).length +
          (sodMissingIds results merged).length := by
        have := congrArg List.length hids
        simpa using this
      rw [hlen, hdedup]
      have hsplit := List.length_eq_length_filter_add
        (l := merged.map (·.Change_ID)) (fun i => (sodCids results).contains i)
      rw [length_filter_mem_of_nodup _ _ hndA hCnd hCsub] at hsplit
      have hlenA : (merged.map (·.Change_ID)).length = merged.length := by simp
      omega
    · intro id
      rw [hids]
      constructor
      · intro hmem
        rcases List.mem_append.1 hmem with hmem | hmem
        · obtain ⟨c, hc, hcs⟩ := List.mem_map.1 hmem
          exact (Option.some.inj hcs) ▸ hCsub c hc
        · obtain ⟨c, hc, hcs⟩ := List.mem_map.1 hmem
          rw [hdedup] at hc
          exact (Option.some.inj hcs) ▸ (List.mem_filter.1 hc).1
      · intro hmem
        by_cases hc : id ∈ sodCids results
        · exact List.mem_append_left _ (List.mem_map_of_mem some hc)
        · refine List.mem_append_right _ (List.mem_map_of_mem some ?_)
          rw [hdedup]
          refine List.mem_filter.2 ⟨hmem, ?_⟩
          simp [List.elem_iff, hc]

/-- Witness for C1 at single-row inputs in both workflows. -/
theorem C1_cardinality_witness :
    ((approverProcessAIResults
        [[("Change_ID", "CHG1"), ("Status", "OK"), ("Reason_Code", "Valid approver")]]
        [[("Change_ID", "CHG1")], [("Change_ID", "CHG2")]]).map
      (fun r => dictLookup r "Change_ID") =
      [[("Change_ID", "CHG1")], [("Change_ID", "CHG2")]].map
        (fun r => dictLookup r "Change_ID")) ∧
    (∃ out, sodProcessAIResults
        [[("change_id", "CHG1"), ("asset_name", "A1"), ("status", "OK"),
          ("exception_reason", "")]] [mkSODRow "U1" "U2" "U3" "U4"] = .ok out ∧
      out.length = [mkSODRow "U1" "U2" "U3" "U4"].length ∧
      ∀ id : String, some id ∈ out.map (·.Change_ID) ↔
        id ∈ [mkSODRow "U1" "U2" "U3" "U4"].map (·.Change_ID)) :=
  ⟨C1_cardinality.1
      [[("Change_ID", "CHG1"), ("Status", "OK"), ("Reason_Code", "Valid approver")]]
      [[("Change_ID", "CHG1")], [("Change_ID", "CHG2")]]
      (by
        show ∀ L ∈ ([[("Change_ID", "CHG1")], [("Change_ID", "CHG2")]] : List Dict),
          (List.filter (fun r =>
              optValEq (dictLookup L "Change_ID") (dictLookup r "Change_ID"))
            [[("Change_ID", "CHG1"), ("Status", "OK"),
              ("Reason_Code", "Valid approver")]]).length ≤ 1
        decide),
    C1_cardinality.2
      [[("change_id", "CHG1"), ("asset_name", "A1"), ("status", "OK"),
        ("exception_reason", "")]] [mkSODRow "U1" "U2" "U3" "U4"]
      (by decide) (by decide) (by decide) (by decide)⟩

/-- Counterexample for C1 as stated: a backend outcome list that repeats
one input identifier makes the approver left merge duplicate that row —
two output rows for one input row. -/
theorem C1_counterexample :
    (approverProcessAIResults
      [[("Change_ID", "CHG1"), ("Status", "OK"), ("Reason_Code", "a")],
        [("Change_ID", "CHG1"), ("Status", "OK"), ("Reason_Code", "b")]]
      [[("Change_ID", "CHG1")]]).length = 2 ∧
    ([[("Change_ID", "CHG1")]] : List Dict).length = 1 ∧ (2 : Nat) ≠ 1 :=
  ⟨by decide, by decide, by decide⟩

end ChangeMgmt
